import Mathlib

/-!
Verification of the C4 diagram core (src/diagram_generator/c4_models.py and
src/diagram_generator/diagram_optimizer.py), shallowly embedded in Lean 4.

Modelling conventions:
* Python float arithmetic is modelled exactly over the rationals; the only
  Python-level float failure mode exercised by the code, division by zero,
  is modelled with an explicit check returning an Except error.
* Python str objects are Lean Strings; Python int is Lean Int; Python `%`
  on a positive divisor agrees with Int.emod.
* Python dicts preserve insertion order; they are modelled as association
  lists with first-occurrence order preserved (dictUpdate / the fold in
  merge_duplicate_relationships).
* Python's built-in hash on strings is salted per interpreter process; it is
  modelled as an explicit parameter h : String -> Int.
* math.pi, math.cos and math.sin are transcendental and not rational; they
  are passed as explicit parameters where the code uses them.  No theorem
  below depends on their values.
* Exceptions (raise ValueError, ZeroDivisionError) are modelled with Except.
-/

/-- Element kinds, from ElementType in c4_models.py. -/
inductive ElementType where
  | person
  | system
  | external_system
  | container
  | component
  | database
  | queue
  | file_system
deriving DecidableEq, Repr

/-- Layout strategies, from LayoutStrategy in diagram_optimizer.py. -/
inductive LayoutStrategy where
  | hierarchical
  | circular
  | force_directed
  | grid
  | layered
deriving DecidableEq, Repr

/-- The Python class an element object belongs to: the C4Element base class
or one of its dataclass subclasses.  The subclasses declare element_type
with init=False, so passing element_type to their constructors raises
TypeError — which is exactly what _deep_copy_diagram does; only the class
identity matters for the verified code, so the subclass payload fields
(role, containers, port, …, none of which the optimizer reads) are not
carried. -/
inductive ElemClass where
  | element
  | person
  | system
  | container
  | component
deriving DecidableEq, Repr

/-- A diagram element, from C4Element in c4_models.py.  Fields that no
mutating path of the verified code reads or writes through (description,
technology, tags, subclass payloads) are carried where relevant to a claim
and omitted otherwise; coordinates are Option since they are None until a
layout pass assigns them; cls records the Python class of the object. -/
structure C4Element where
  id : String
  name : String
  elementType : ElementType
  properties : List (String × String)
  x : Option ℚ
  y : Option ℚ
  cls : ElemClass
deriving DecidableEq, Repr

/-- A relationship, from C4Relationship in c4_models.py. -/
structure C4Relationship where
  id : String
  source_id : String
  target_id : String
  label : String
  properties : List (String × String)
deriving DecidableEq, Repr

/-- One cluster record, as built by DiagramOptimizer._cluster_by_element_type
and _cluster_by_responsibility (a dict with keys type, name, elements). -/
structure Cluster where
  ctype : String
  cname : String
  elems : List String
deriving DecidableEq, Repr

/-- A diagram, from C4Diagram in c4_models.py.  Of the open metadata map the
optimizer reads and writes exactly one key, "clusters"; that key is modelled
explicitly, with none standing for an absent key — the distinction matters
because metadata.copy() in _deep_copy_diagram is shallow, so a pre-existing
clusters list is shared between the copy and the original and
_apply_clustering's extend on it reaches the caller's diagram. -/
structure C4Diagram where
  elements : List C4Element
  relationships : List C4Relationship
  metadata_clusters : Option (List Cluster)
deriving DecidableEq, Repr

/-- Optimizer configuration, from OptimizationConfig in diagram_optimizer.py
(integer-valued fields kept as Int exactly as in Python; the float default
force_threshold = 0.1 is the exact rational value of that IEEE-754
double). -/
structure OptimizationConfig where
  layout_strategy : LayoutStrategy := .hierarchical
  canvas_width : Int := 1200
  canvas_height : Int := 800
  margin : Int := 50
  min_element_distance : Int := 100
  element_width : Int := 120
  element_height : Int := 80
  merge_duplicate_relationships : Bool := true
  simplify_transitive_relationships : Bool := true
  max_relationship_labels : Int := 50
  enable_clustering : Bool := true
  cluster_by_type : Bool := true
  cluster_by_responsibility : Bool := true
  max_cluster_size : Int := 8
  max_optimization_iterations : Int := 100
  force_threshold : ℚ := 3602879701896397 / 36028797018963968
deriving Repr

/-- The default configuration OptimizationConfig(). -/
def defaultConfig : OptimizationConfig := {}

deriving instance DecidableEq for Except

/-- The ids of a diagram's elements, in list order. -/
def elementIds (d : C4Diagram) : List String := d.elements.map (fun e => e.id)

/-- C4Diagram.add_element: raise ValueError if any existing element has the
same id, else append. -/
def C4Diagram.add_element (d : C4Diagram) (e : C4Element) :
    Except String C4Diagram :=
  if d.elements.any (fun x => x.id = e.id) then
    .error ("Element with ID " ++ e.id ++ " already exists")
  else
    .ok { d with elements := d.elements ++ [e] }

/-- C4Diagram.add_relationship: raise ValueError unless both endpoints are
ids of present elements, else append. -/
def C4Diagram.add_relationship (d : C4Diagram) (r : C4Relationship) :
    Except String C4Diagram :=
  if ¬ (elementIds d).contains r.source_id then
    .error ("Source element " ++ r.source_id ++ " not found")
  else if ¬ (elementIds d).contains r.target_id then
    .error ("Target element " ++ r.target_id ++ " not found")
  else
    .ok { d with relationships := d.relationships ++ [r] }

/-- C4Diagram.get_element_by_id: the first element with the id, if any. -/
def C4Diagram.get_element_by_id (d : C4Diagram) (element_id : String) :
    Option C4Element :=
  d.elements.find? (fun e => e.id = element_id)

/-- C4Diagram.remove_element: drop relationships touching the id first, then
drop elements with the id; returns the diagram and the removed flag. -/
def C4Diagram.remove_element (d : C4Diagram) (element_id : String) :
    C4Diagram × Bool :=
  let rels := d.relationships.filter
    (fun r => r.source_id ≠ element_id ∧ r.target_id ≠ element_id)
  let els := d.elements.filter (fun e => e.id ≠ element_id)
  ({ d with relationships := rels, elements := els },
   els.length < d.elements.length)

/-- The duplicated-(kind,name) half of C4Diagram.validate: walk the element
list keeping the set of (element_type, name) keys seen so far (the keys of
the Python type_names dict); emit one error per element whose key was
already seen. -/
def dupKindNameErrors : List C4Element → List (ElementType × String) →
    List String
  | [], _ => []
  | e :: rest, seen =>
    let key := (e.elementType, e.name)
    (if key ∈ seen then ["Duplicate name: " ++ e.name] else []) ++
      dupKindNameErrors rest (key :: seen)

/-- C4Diagram.validate: one error per orphaned relationship endpoint (in
relationship order, source before target), then one error per repeated
(kind, name) key (in element order).  Pure: returns only the error list. -/
def C4Diagram.validate (d : C4Diagram) : List String :=
  let ids := elementIds d
  let orphanErrs := d.relationships.flatMap (fun r =>
    (if ids.contains r.source_id then [] else
      ["Relationship " ++ r.id ++ " has invalid source " ++ r.source_id]) ++
    (if ids.contains r.target_id then [] else
      ["Relationship " ++ r.id ++ " has invalid target " ++ r.target_id]))
  orphanErrs ++ dupKindNameErrors d.elements []

/-- Character-list version of Python str.startswith, used to build the
substring test below. -/
def leadsWith : List Char → List Char → Bool
  | [], _ => true
  | _ :: _, [] => false
  | c :: cs, d :: ds => (c = d) && leadsWith cs ds

/-- Character-list version of Python's `needle in haystack` substring test. -/
def hasSub (needle : List Char) : List Char → Bool
  | [] => leadsWith needle []
  | d :: ds => leadsWith needle (d :: ds) || hasSub needle ds

/-- Python `needle in haystack` on strings. -/
def strIn (needle hay : String) : Bool := hasSub needle.data hay.data

/-- Python str.lower, character by character (the labels this code handles
are ASCII, where Char.toLower agrees with Python). -/
def strLower (s : String) : String := ⟨s.data.map Char.toLower⟩

/-- Python str.strip: drop leading and trailing whitespace. -/
def strTrim (s : String) : String :=
  ⟨((s.data.dropWhile Char.isWhitespace).reverse.dropWhile
      Char.isWhitespace).reverse⟩

/-- Python dict assignment dict[k] = v on an insertion-ordered association
list: overwrite in place when the key exists, else append. -/
def dictUpdate (props : List (String × String)) (kv : String × String) :
    List (String × String) :=
  if props.any (fun p => p.1 = kv.1) then
    props.map (fun p => if p.1 = kv.1 then (p.1, kv.2) else p)
  else props ++ [kv]

/-- Python dict.update(b) applied to a: later values overwrite earlier. -/
def dictMerge (a b : List (String × String)) : List (String × String) :=
  b.foldl dictUpdate a

/-- Python dict.get(k, default). -/
def dictGetD (props : List (String × String)) (k dflt : String) : String :=
  match props.find? (fun p => p.1 = k) with
  | some p => p.2
  | none => dflt

/-- Python `k in dict`. -/
def dictHasKey (props : List (String × String)) (k : String) : Bool :=
  props.any (fun p => p.1 = k)

/-- The referential-integrity invariant: every relationship's endpoints are
ids of present elements. -/
def RelsValid (d : C4Diagram) : Prop :=
  ∀ r ∈ d.relationships,
    r.source_id ∈ elementIds d ∧ r.target_id ∈ elementIds d

instance (d : C4Diagram) : Decidable (RelsValid d) :=
  List.decidableBAll _ _

/-- Some relationship references an absent element id. -/
def hasOrphanRel (d : C4Diagram) : Prop :=
  ∃ r ∈ d.relationships,
    r.source_id ∉ elementIds d ∨ r.target_id ∉ elementIds d

instance (d : C4Diagram) : Decidable (hasOrphanRel d) :=
  List.decidableBEx _ _

/-- Two elements share the pair (kind, name). -/
def hasDupKindName (d : C4Diagram) : Prop :=
  ¬ (d.elements.map (fun e => (e.elementType, e.name))).Nodup

/-- Concrete diagram for the C2 counterexample: one component named X. -/
def c2d : C4Diagram :=
  ⟨[⟨"id1", "X", .component, [], none, none, .element⟩], [], none⟩

/-- Fresh-id element duplicating the (kind, name) pair of c2d's element. -/
def c2e : C4Element := ⟨"id2", "X", .component, [], none, none, .element⟩

/-- Concrete diagram for the C3 counterexample: two elements sharing the id
"a" but differing in name, so their (kind, name) keys differ. -/
def c3d : C4Diagram :=
  ⟨[⟨"a", "X", .component, [], none, none, .element⟩,
    ⟨"a", "Y", .component, [], none, none, .element⟩], [], none⟩

namespace DiagramOptimizer

/-- DiagramOptimizer._merge_relationship_labels: keep a non-empty label over
an empty one; keep equal labels; keep the longer label when the shorter is a
case-insensitive substring of it; otherwise join with " / ". -/
def merge_relationship_labels (label1 label2 : String) : String :=
  if label1 = "" then label2
  else if label2 = "" then label1
  else if label1 = label2 then label1
  else if label2.length > label1.length && strIn (strLower label1) (strLower label2)
    then label2
  else if label1.length > label2.length && strIn (strLower label2) (strLower label1)
    then label1
  else label1 ++ " / " ++ label2

/-- One step of the relationship_map dict fold in
_merge_duplicate_relationships: the dict is an insertion-ordered list of
((source_id, target_id), relationship) entries; an existing entry is merged
in place, a new key is appended. -/
def mergeStep (entries : List ((String × String) × C4Relationship))
    (r : C4Relationship) : List ((String × String) × C4Relationship) :=
  let key := (r.source_id, r.target_id)
  if entries.any (fun p => p.1 = key) then
    entries.map (fun p =>
      if p.1 = key then
        (p.1, { p.2 with
                  label := merge_relationship_labels p.2.label r.label,
                  properties := dictMerge p.2.properties r.properties })
      else p)
  else entries ++ [(key, r)]

/-- DiagramOptimizer._merge_duplicate_relationships: fold the relationship
list through the dict keyed by the ordered pair (source_id, target_id), then
take the dict's values in insertion order. -/
def merge_duplicate_relationships (d : C4Diagram) : C4Diagram :=
  let rels := (d.relationships.foldl mergeStep []).map (fun p => p.2)
  { d with relationships := rels }

/-- The adjacency sets of _simplify_transitive_relationships: the targets of
the relationships whose source is s.  Python stores a set; only membership
and key-presence (non-emptiness) are consulted, for which the list of
targets is equivalent. -/
def adjTargets (d : C4Diagram) (s : String) : List String :=
  (d.relationships.filter (fun r => r.source_id = s)).map
    (fun r => r.target_id)

/-- The per-relationship removal test of _simplify_transitive_relationships:
some intermediate i with source→i, i≠target, i a key of the adjacency dict,
and i→target.  (Key presence in the adjacency dict is exactly non-emptiness
of the target list, since keys are created only when a target is added.) -/
def transRemoved (d : C4Diagram) (r : C4Relationship) : Bool :=
  (adjTargets d r.source_id).any (fun i =>
    i ≠ r.target_id && !(adjTargets d i).isEmpty &&
      (adjTargets d i).contains r.target_id)

/-- DiagramOptimizer._simplify_transitive_relationships: collect the ids of
relationships with a 2-hop bypass, then keep the relationships whose id is
not in that set. -/
def simplify_transitive_relationships (d : C4Diagram) : C4Diagram :=
  let toRemove := (d.relationships.filter (fun r => transRemoved d r)).map
    (fun r => r.id)
  let rels := d.relationships.filter (fun r => ¬ toRemove.contains r.id)
  { d with relationships := rels }

/-- Python label.lower().strip(), the normalisation used for label counting
in _optimize_relationship_labels. -/
def normLabel (s : String) : String := strTrim (strLower s)

/-- The label_counts entry for one normalised label: how many relationships
of the diagram normalise to it. -/
def labelCount (d : C4Diagram) (lbl : String) : Nat :=
  (d.relationships.filter (fun r => normLabel r.label = lbl)).length

/-- The fixed phrase-shortening table of _shorten_label, in dict order. -/
def shortenings : List (String × String) :=
  [("depends on", "uses"),
   ("communicates with", "calls"),
   ("sends data to", "sends to"),
   ("receives data from", "gets from"),
   ("interacts with", "uses")]

/-- DiagramOptimizer._shorten_label: first matching table entry rewrites the
label via str.replace (note: the lowercase long form is replaced inside the
original-case label, exactly as the source does); otherwise labels longer
than 20 characters are truncated to 17 plus an ellipsis. -/
def shorten_label (label : String) : String :=
  match shortenings.find? (fun p => strIn p.1 (strLower label)) with
  | some p => label.replace p.1 p.2
  | none => if label.length > 20 then label.take 17 ++ "..." else label

/-- The IEEE-754 double closest to the Python literal 0.3, as a rational:
5404319552844595 / 2^54.  (The subsequent float product with the int
max_relationship_labels is modelled as an exact rational product; for the
default configuration both sides of the comparison agree with Python.) -/
def pointThree : ℚ := 5404319552844595 / 18014398509481984

/-- DiagramOptimizer._optimize_relationship_labels: a relationship whose
normalised label occurs more than max_relationship_labels * 0.3 times gets a
shortened label. -/
def optimize_relationship_labels (cfg : OptimizationConfig) (d : C4Diagram) :
    C4Diagram :=
  let rels := d.relationships.map (fun r =>
    if (labelCount d (normLabel r.label) : ℚ) >
        (cfg.max_relationship_labels : ℚ) * pointThree then
      { r with label := shorten_label r.label }
    else r)
  { d with relationships := rels }

/-- DiagramOptimizer._optimize_relationships: merge duplicates (if enabled),
simplify transitive relationships (if enabled), then optimize labels. -/
def optimize_relationships (cfg : OptimizationConfig) (d : C4Diagram) :
    C4Diagram :=
  let d1 := if cfg.merge_duplicate_relationships then
    merge_duplicate_relationships d else d
  let d2 := if cfg.simplify_transitive_relationships then
    simplify_transitive_relationships d1 else d1
  optimize_relationship_labels cfg d2

/-- The Python str value of an ElementType. -/
def elemTypeValue : ElementType → String
  | .person => "person"
  | .system => "system"
  | .external_system => "external_system"
  | .container => "container"
  | .component => "component"
  | .database => "database"
  | .queue => "queue"
  | .file_system => "file_system"

/-- Python element_type.value.title() + " Cluster", written out per
constructor (str.title capitalises after each non-letter, hence
External_System). -/
def elemTypeClusterName : ElementType → String
  | .person => "Person Cluster"
  | .system => "System Cluster"
  | .external_system => "External_System Cluster"
  | .container => "Container Cluster"
  | .component => "Component Cluster"
  | .database => "Database Cluster"
  | .queue => "Queue Cluster"
  | .file_system => "File_System Cluster"

/-- First-occurrence order of the values (f e) over a list, matching Python
dict key insertion order when grouping. -/
def firstSeenOrder {α β : Type} [DecidableEq β] (f : α → β) (l : List α) :
    List β :=
  l.foldl (fun acc a => if acc.contains (f a) then acc else acc ++ [f a]) []

/-- DiagramOptimizer._cluster_by_element_type: group element ids by element
type in first-occurrence order; types with at least 2 members become
clusters. -/
def cluster_by_element_type (d : C4Diagram) : List Cluster :=
  (firstSeenOrder (fun e => e.elementType) d.elements).filterMap (fun t =>
    let ids := (d.elements.filter (fun e => e.elementType = t)).map
      (fun e => e.id)
    if ids.length ≥ 2 then
      some ⟨"element_type", elemTypeClusterName t, ids⟩
    else none)

/-- DiagramOptimizer._cluster_by_responsibility: group element ids by the
responsibility property (default "unknown"); groups sized between 2 and
max_cluster_size become clusters. -/
def cluster_by_responsibility (cfg : OptimizationConfig) (d : C4Diagram) :
    List Cluster :=
  (firstSeenOrder (fun e => dictGetD e.properties "responsibility" "unknown")
      d.elements).filterMap (fun resp =>
    let ids := (d.elements.filter
      (fun e => dictGetD e.properties "responsibility" "unknown" = resp)).map
      (fun e => e.id)
    if ids.length ≥ 2 ∧ (ids.length : Int) ≤ cfg.max_cluster_size then
      some ⟨"responsibility", resp ++ " Components", ids⟩
    else none)

/-- The per-element property assignment inside _apply_clustering: the first
element whose id matches (get_element_by_id) receives cluster_id (only when
absent) and cluster_type (always). -/
def setClusterProps (eid cid ctype : String) :
    List C4Element → List C4Element
  | [] => []
  | e :: rest =>
    if e.id = eid then
      let p1 := if dictHasKey e.properties "cluster_id" then e.properties
        else dictUpdate e.properties ("cluster_id", cid)
      { e with properties := dictUpdate p1 ("cluster_type", ctype) } :: rest
    else e :: setClusterProps eid cid ctype rest

/-- The clusters list one clustering pass computes over a diagram: the
by-type clusters (if enabled) followed by the by-responsibility clusters
(if enabled). -/
def clustersOf (cfg : OptimizationConfig) (d : C4Diagram) : List Cluster :=
  (if cfg.cluster_by_type then cluster_by_element_type d else []) ++
  (if cfg.cluster_by_responsibility then cluster_by_responsibility cfg d
    else [])

/-- DiagramOptimizer._apply_clustering: build both cluster lists, tag each
clustered element, then extend metadata["clusters"] (installing an empty
list first when the key is absent, so the key is always present
afterwards).  The cluster_id string uses the metadata cluster count as it
stands during the loop, i.e. before the extend, hence the same numeral for
every cluster of one call, exactly as in the source. -/
def apply_clustering (cfg : OptimizationConfig) (d : C4Diagram) : C4Diagram :=
  if ¬ cfg.enable_clustering then d
  else
    let clusters := clustersOf cfg d
    let cid := "cluster_" ++ toString (d.metadata_clusters.getD []).length
    let els := clusters.foldl (fun acc c =>
      c.elems.foldl (fun acc2 eid => setClusterProps eid cid c.ctype acc2)
        acc) d.elements
    { d with elements := els,
             metadata_clusters := some (d.metadata_clusters.getD [] ++
               clusters) }

/-- The hierarchy_levels table of _apply_hierarchical_layout; dict.get with
default 3 covers file_system, the one kind absent from the table. -/
def hierarchyLevel : ElementType → Nat
  | .person => 0
  | .system => 1
  | .external_system => 1
  | .container => 2
  | .component => 3
  | .database => 2
  | .queue => 2
  | .file_system => 3

/-- Position the elements of one call to _apply_hierarchical_layout: each
element's x index is the number of earlier elements on the same hierarchy
level (the enumeration index inside its level group), its y is fixed by the
level value. -/
def placeHier (cfg : OptimizationConfig) (all : List C4Element)
    (ySpacing : ℚ) : List C4Element → List C4Element → List C4Element
  | _, [] => []
  | seen, e :: rest =>
    let lvl := hierarchyLevel e.elementType
    let grp := all.filter (fun e2 => hierarchyLevel e2.elementType = lvl)
    let xSpacing : ℚ := ((cfg.canvas_width - 2 * cfg.margin : Int) : ℚ) /
      (max grp.length 1 : Nat)
    let i := seen.countP (fun e2 => hierarchyLevel e2.elementType = lvl)
    { e with
        x := some ((cfg.margin : ℚ) + i * xSpacing + xSpacing / 2),
        y := some ((cfg.margin : ℚ) + lvl * ySpacing) } ::
      placeHier cfg all ySpacing (seen ++ [e]) rest

/-- DiagramOptimizer._apply_hierarchical_layout: vertical spacing divides
the canvas by the number of distinct levels present (at least 1), and each
level's elements spread evenly across the width. -/
def apply_hierarchical_layout (cfg : OptimizationConfig) (d : C4Diagram) :
    C4Diagram :=
  let nlev := (firstSeenOrder (fun e => hierarchyLevel e.elementType)
    d.elements).length
  let ySpacing : ℚ := ((cfg.canvas_height - 2 * cfg.margin : Int) : ℚ) /
    (max nlev 1 : Nat)
  { d with elements := placeHier cfg d.elements ySpacing [] d.elements }

/-- List.map with the enumeration index, for the enumerate() loops of the
circular and grid layouts. -/
def mapWithIndex {α β : Type} (f : Nat → α → β) : List α → List β :=
  let rec go (i : Nat) : List α → List β
    | [] => []
    | a :: rest => f i a :: go (i + 1) rest
  go 0

/-- DiagramOptimizer._apply_circular_layout.  math.pi, math.cos and math.sin
are abstracted as parameters piA, cosA, sinA (their values are irrelevant to
every theorem below).  The angle-step division 2*pi/len(elements) raises
ZeroDivisionError on an element-free diagram, before any position is
assigned. -/
def apply_circular_layout (piA : ℚ) (cosA sinA : ℚ → ℚ)
    (cfg : OptimizationConfig) (d : C4Diagram) : Except String C4Diagram :=
  let centerX : ℚ := (cfg.canvas_width : ℚ) / 2
  let centerY : ℚ := (cfg.canvas_height : ℚ) / 2
  let radius : ℚ := min centerX centerY - (cfg.margin : ℚ) -
    (cfg.element_width : ℚ)
  if d.elements.length = 0 then
    .error "ZeroDivisionError: float division by zero"
  else
    let angleStep : ℚ := 2 * piA / (d.elements.length : ℚ)
    let els := mapWithIndex (fun i e =>
      let angle := (i : ℚ) * angleStep
      { e with x := some (centerX + radius * cosA angle),
               y := some (centerY + radius * sinA angle) }) d.elements
    .ok { d with elements := els }

/-- The position initialisation of _apply_force_directed_layout (the first
loop of the pass): an element missing either coordinate receives
  x = margin + (canvas_width  - 2*margin) * hash(id)        % 1000 / 1000
  y = margin + (canvas_height - 2*margin) * hash(id ++ "y") % 1000 / 1000
with Python's left-associative * % / chain and its nonnegative % on the
positive modulus 1000.  Python's salted per-process string hash is the
explicit parameter h. -/
def force_init_positions (h : String → Int) (cfg : OptimizationConfig)
    (d : C4Diagram) : C4Diagram :=
  let els := d.elements.map (fun e =>
    if e.x = none ∨ e.y = none then
      { e with
          x := some ((cfg.margin : ℚ) +
            (Int.emod ((cfg.canvas_width - 2 * cfg.margin) * h e.id) 1000 :
              ℚ) / 1000),
          y := some ((cfg.margin : ℚ) +
            (Int.emod ((cfg.canvas_height - 2 * cfg.margin) *
              h (e.id ++ "y")) 1000 : ℚ) / 1000) }
    else e)
  { d with elements := els }

/-- DiagramOptimizer._apply_grid_layout: cols = int(sqrt(n)) + 1 (exact
integer square root; Python's float sqrt agrees on every realistic diagram
size), rows = ceil-division of n by cols.  An element-free diagram gives
rows = 0 and the row-spacing division raises ZeroDivisionError. -/
def apply_grid_layout (cfg : OptimizationConfig) (d : C4Diagram) :
    Except String C4Diagram :=
  let n := d.elements.length
  let cols := Nat.sqrt n + 1
  let rows := (n + cols - 1) / cols
  let xSpacing : ℚ := ((cfg.canvas_width - 2 * cfg.margin : Int) : ℚ) / cols
  if rows = 0 then
    .error "ZeroDivisionError: float division by zero"
  else
    let ySpacing : ℚ := ((cfg.canvas_height - 2 * cfg.margin : Int) : ℚ) /
      rows
    let els := mapWithIndex (fun i e =>
      let col := i % cols
      let row := i / cols
      { e with
          x := some ((cfg.margin : ℚ) + col * xSpacing + xSpacing / 2),
          y := some ((cfg.margin : ℚ) + row * ySpacing + ySpacing / 2) })
      d.elements
    .ok { d with elements := els }

/-- The IEEE-754 double closest to the Python literal 0.1 (the learning
rate of the force-directed update), as a rational. -/
def floatPointOne : ℚ := 3602879701896397 / 36028797018963968

/-- The IEEE-754 double closest to the Python literal 0.01 (the epsilon
added to distances to avoid division by zero), as a rational. -/
def floatPointZeroOne : ℚ := 5764607523034235 / 576460752303423488

/-- Pointwise update of the forces dict. -/
def fupd (f : String → ℚ × ℚ) (k : String) (v : ℚ × ℚ) : String → ℚ × ℚ :=
  fun s => if s = k then v else f s

/-- Python enumerate over a list. -/
def enumerate {α : Type} (l : List α) : List (Nat × α) :=
  mapWithIndex (fun i a => (i, a)) l

/-- The repulsive-force double loop of one force-directed iteration: every
ordered pair of distinct indices contributes a force inversely proportional
to the squared distance to the first element's entry.  Positions are read
through getD 0, which is never consulted: the initialisation pass has
already given every element both coordinates (Python would raise a
TypeError otherwise).  The square root is the abstract parameter sqrtA; the
real square root is nonnegative, keeping Python's denominators at least
0.01 and hence nonzero. -/
def repulsPhase (cfg : OptimizationConfig) (sqrtA : ℚ → ℚ)
    (els : List C4Element) (forces : String → ℚ × ℚ) : String → ℚ × ℚ :=
  (enumerate els).foldl (fun fo p1 =>
    (enumerate els).foldl (fun fo2 p2 =>
      if p1.1 ≠ p2.1 then
        let dx := p1.2.x.getD 0 - p2.2.x.getD 0
        let dy := p1.2.y.getD 0 - p2.2.y.getD 0
        let distance := sqrtA (dx * dx + dy * dy) + floatPointZeroOne
        let force := (cfg.min_element_distance : ℚ) / (distance * distance)
        fupd fo2 p1.2.id
          ((fo2 p1.2.id).1 + force * dx / distance,
           (fo2 p1.2.id).2 + force * dy / distance)
      else fo2) fo) forces

/-- The attractive-force loop of one force-directed iteration: every
relationship whose endpoints resolve through get_element_by_id pulls them
together with a force proportional to their distance. -/
def attractPhase (cfg : OptimizationConfig) (sqrtA : ℚ → ℚ)
    (els : List C4Element) (rels : List C4Relationship)
    (forces : String → ℚ × ℚ) : String → ℚ × ℚ :=
  rels.foldl (fun fo r =>
    match els.find? (fun e => e.id = r.source_id),
        els.find? (fun e => e.id = r.target_id) with
    | some e1, some e2 =>
      let dx := e2.x.getD 0 - e1.x.getD 0
      let dy := e2.y.getD 0 - e1.y.getD 0
      let distance := sqrtA (dx * dx + dy * dy) + floatPointZeroOne
      let force := distance / (cfg.min_element_distance : ℚ)
      let fo2 := fupd fo e1.id
        ((fo e1.id).1 + force * dx / distance,
         (fo e1.id).2 + force * dy / distance)
      fupd fo2 e2.id
        ((fo2 e2.id).1 - force * dx / distance,
         (fo2 e2.id).2 - force * dy / distance)
    | _, _ => fo) forces

/-- The apply-forces loop of one force-directed iteration: move every
element by a tenth of its net force, clamp to the canvas margins, and
accumulate the largest single-axis force magnitude. -/
def applyGo (cfg : OptimizationConfig) (forces : String → ℚ × ℚ) :
    List C4Element → ℚ → List C4Element × ℚ
  | [], m => ([], m)
  | e :: rest, m =>
    let fx := (forces e.id).1
    let fy := (forces e.id).2
    let m2 := max (max m |fx|) |fy|
    let x2 := max (cfg.margin : ℚ)
      (min ((cfg.canvas_width - cfg.margin : Int) : ℚ)
        (e.x.getD 0 + fx * floatPointOne))
    let y2 := max (cfg.margin : ℚ)
      (min ((cfg.canvas_height - cfg.margin : Int) : ℚ)
        (e.y.getD 0 + fy * floatPointOne))
    let st := applyGo cfg forces rest m2
    ({ e with x := some x2, y := some y2 } :: st.1, st.2)

/-- The bounded iteration of _apply_force_directed_layout: each round
rebuilds the forces dict at zero, runs the repulsive, attractive and
apply loops, and stops early once the largest force magnitude drops below
the configured threshold (the check sits at the end of the loop body, after
the positions moved). -/
def forceIterate (cfg : OptimizationConfig) (sqrtA : ℚ → ℚ)
    (rels : List C4Relationship) : Nat → List C4Element → List C4Element
  | 0, els => els
  | k + 1, els =>
    let f1 := repulsPhase cfg sqrtA els (fun _ => (0, 0))
    let f2 := attractPhase cfg sqrtA els rels f1
    let st := applyGo cfg f2 els 0
    if st.2 < cfg.force_threshold then st.1
    else forceIterate cfg sqrtA rels k st.1

/-- DiagramOptimizer._apply_force_directed_layout: hash-derived initial
positions for coordinate-free elements, then the bounded force simulation.
(The adjacency dict the source builds between the two stages is dead code —
nothing reads it — and is not modelled.)  math.sqrt is the abstract
parameter sqrtA, as with the trigonometric functions of the circular
layout. -/
def apply_force_directed_layout (h : String → Int) (sqrtA : ℚ → ℚ)
    (cfg : OptimizationConfig) (d : C4Diagram) : C4Diagram :=
  let d1 := force_init_positions h cfg d
  let els := forceIterate cfg sqrtA d1.relationships
    cfg.max_optimization_iterations.toNat d1.elements
  { d1 with elements := els }

/-- The in_degree initialisation of _calculate_dependency_levels: the number
of relationships targeting an id.  (Python only stores entries for element
ids; reads are confined to element ids under the referential-integrity
hypothesis of the theorems below — on any other input the source would
raise KeyError inside the loop.) -/
def indeg0 (rels : List C4Relationship) (s : String) : Int :=
  (rels.countP (fun r => r.target_id = s) : Int)

/-- The inner for-loop of one while-iteration of
_calculate_dependency_levels: scan all relationships; for each with source
equal to the dequeued id, relax the target's level, decrement its
in-degree, and enqueue it when the in-degree reaches zero. -/
def processRels (c : String) :
    List C4Relationship →
    (String → Nat) × (String → Int) × List String →
    (String → Nat) × (String → Int) × List String
  | [], st => st
  | r :: rs, (lv, dg, q) =>
    if r.source_id = c then
      let t := r.target_id
      let lv2 : String → Nat :=
        fun s => if s = t then max (lv t) (lv c + 1) else lv s
      let dg2 : String → Int := fun s => if s = t then dg t - 1 else dg s
      let q2 := if dg2 t = 0 then q ++ [t] else q
      processRels c rs (lv2, dg2, q2)
    else processRels c rs (lv, dg, q)

/-- The while-loop of _calculate_dependency_levels, with explicit fuel.
Each queue entry is dequeued at most once and every enqueued id is either an
initial zero-in-degree key or an id whose in-degree reaches zero (which
happens at most once per id), so elements.length + relationships.length
iterations always suffice; kahn_fuel_never_exhausted below proves the fuel
never runs out under the theorems' hypotheses. -/
def kahnLoop (rels : List C4Relationship) :
    Nat → (String → Nat) → (String → Int) → List String → (String → Nat)
  | 0, lv, _, _ => lv
  | _ + 1, lv, _, [] => lv
  | fuel + 1, lv, dg, c :: q =>
    let st := processRels c rels (lv, dg, q)
    kahnLoop rels fuel st.1 st.2.1 st.2.2

/-- First-occurrence deduplication with an accumulator of already-seen
values, modelling iteration over the keys of a Python dict built by
repeated insertion. -/
def dedupFirstAux (seen : List String) : List String → List String
  | [] => []
  | s :: rest =>
    if seen.contains s then dedupFirstAux seen rest
    else s :: dedupFirstAux (s :: seen) rest

/-- Keys of the levels/in_degree dicts in insertion order: the element ids
with first occurrences kept. -/
def dedupFirst (l : List String) : List String := dedupFirstAux [] l

/-- DiagramOptimizer._calculate_dependency_levels: Kahn's algorithm.  All
levels start at 0; the queue starts with the zero-in-degree dict keys in
insertion order. -/
def calculate_dependency_levels (d : C4Diagram) : String → Nat :=
  let dg := indeg0 d.relationships
  let q0 := (dedupFirst (d.elements.map (fun e => e.id))).filter
    (fun s => dg s = 0)
  kahnLoop d.relationships (d.elements.length + d.relationships.length)
    (fun _ => 0) dg q0

/-- Position the elements of _apply_layered_layout, mirroring placeHier with
the Kahn level of each element's id in place of the hierarchy level, and the
extra + y_spacing/2 the layered code adds to y. -/
def placeLayered (cfg : OptimizationConfig) (all : List C4Element)
    (levels : String → Nat) (ySpacing : ℚ) :
    List C4Element → List C4Element → List C4Element
  | _, [] => []
  | seen, e :: rest =>
    let lvl := levels e.id
    let grp := all.filter (fun e2 => levels e2.id = lvl)
    let xSpacing : ℚ := ((cfg.canvas_width - 2 * cfg.margin : Int) : ℚ) /
      (max grp.length 1 : Nat)
    let i := seen.countP (fun e2 => levels e2.id = lvl)
    { e with
        x := some ((cfg.margin : ℚ) + i * xSpacing + xSpacing / 2),
        y := some ((cfg.margin : ℚ) + lvl * ySpacing + ySpacing / 2) } ::
      placeLayered cfg all levels ySpacing (seen ++ [e]) rest

/-- DiagramOptimizer._apply_layered_layout: group by Kahn dependency level;
an element-free diagram skips positioning (the level_groups dict is empty),
and otherwise the vertical spacing divides the canvas by the number of
distinct levels present. -/
def apply_layered_layout (cfg : OptimizationConfig) (d : C4Diagram) :
    C4Diagram :=
  let levels := calculate_dependency_levels d
  let nlev := (firstSeenOrder (fun e => levels e.id) d.elements).length
  if nlev = 0 then d
  else
    let ySpacing : ℚ := ((cfg.canvas_height - 2 * cfg.margin : Int) : ℚ) /
      (nlev : Nat)
    let els := placeLayered cfg d.elements levels ySpacing [] d.elements
    { d with elements := els }

/-- DiagramOptimizer._validate_optimization: re-run validate (the result is
only logged) and backfill a default position for any element still missing
a coordinate. -/
def validate_optimization (cfg : OptimizationConfig) (d : C4Diagram) :
    C4Diagram :=
  let els := d.elements.map (fun e =>
    if e.x = none ∨ e.y = none then
      { e with
          x := some ((cfg.margin : ℚ) + (cfg.element_width : ℚ) / 2),
          y := some ((cfg.margin : ℚ) + (cfg.element_height : ℚ) / 2) }
    else e)
  { d with elements := els }

/-- DiagramOptimizer._deep_copy_diagram.  Element copies are built with
type(element)(id=..., element_type=..., ...): the dataclass subclasses
declare element_type with init=False, so for any subclass element this
raises TypeError, modelled as the error branch.  For base-class elements
the field-by-field copy is, in value semantics, the identity on elements
and relationships; metadata is copied with the shallow metadata.copy(),
whose consequence — the clusters list is shared with the original — is
accounted for by input_after_optimize below. -/
def deep_copy_diagram (d : C4Diagram) : Except String C4Diagram :=
  if d.elements.all (fun e => e.cls = ElemClass.element) then
    .ok { elements := d.elements,
          relationships := d.relationships,
          metadata_clusters := d.metadata_clusters }
  else
    .error "TypeError: __init__() got an unexpected keyword argument"

/-- DiagramOptimizer._optimize_layout: dispatch on the configured
strategy.  math.pi, math.cos, math.sin, math.sqrt and the salted string
hash are the abstract parameters piA, cosA, sinA, sqrtA and h. -/
def optimize_layout (piA : ℚ) (cosA sinA sqrtA : ℚ → ℚ)
    (h : String → Int) (cfg : OptimizationConfig) (d : C4Diagram) :
    Except String C4Diagram :=
  match cfg.layout_strategy with
  | .hierarchical => .ok (apply_hierarchical_layout cfg d)
  | .circular => apply_circular_layout piA cosA sinA cfg d
  | .force_directed => .ok (apply_force_directed_layout h sqrtA cfg d)
  | .grid => apply_grid_layout cfg d
  | .layered => .ok (apply_layered_layout cfg d)

/-- DiagramOptimizer.optimize_diagram: deep-copy the argument (which can
itself raise, see deep_copy_diagram), then run the relationship pass, the
clustering pass, the layout pass and the validation pass on the copy,
returning the copy. -/
def optimize_diagram (piA : ℚ) (cosA sinA sqrtA : ℚ → ℚ)
    (h : String → Int) (cfg : OptimizationConfig) (d : C4Diagram) :
    Except String C4Diagram :=
  match deep_copy_diagram d with
  | .error msg => .error msg
  | .ok o =>
    let o := optimize_relationships cfg o
    let o := apply_clustering cfg o
    match optimize_layout piA cosA sinA sqrtA h cfg o with
    | .error msg => .error msg
    | .ok o2 => .ok (validate_optimization cfg o2)

/-- The caller's diagram object after a call to optimize_diagram, traced
write by write through the source.  All passes run on the copy; its element
and relationship objects, their lists, and the property dicts are fresh
(properties.copy(), tags.copy(), new lists), so no write to them reaches
the argument.  The single aliased datum is metadata: metadata.copy() is
shallow, so when the argument's metadata already carries the clusters key,
the copy's clusters entry is the very same list object and
_apply_clustering's extend on it (which runs whenever clustering is
enabled) appends the computed clusters — reading the copy as it stands
after the relationship pass — to the caller's list.  When the key is
absent, _apply_clustering installs a fresh list on the copy only.  When the
deep copy raises (subclass element), no pass runs at all. -/
def input_after_optimize (cfg : OptimizationConfig) (d : C4Diagram) :
    C4Diagram :=
  match deep_copy_diagram d with
  | .error _ => d
  | .ok o =>
    match d.metadata_clusters with
    | none => d
    | some l =>
      if cfg.enable_clustering then
        let mc := some (l ++ clustersOf cfg (optimize_relationships cfg o))
        { d with metadata_clusters := mc }
      else d

/-- One call of optimize_diagram as the caller observes it: the first
component is the caller's diagram object after the call (per the write
trace in input_after_optimize), the second the returned diagram. -/
def optimize_call (piA : ℚ) (cosA sinA sqrtA : ℚ → ℚ)
    (h : String → Int) (cfg : OptimizationConfig) (d : C4Diagram) :
    C4Diagram × Except String C4Diagram :=
  (input_after_optimize cfg d, optimize_diagram piA cosA sinA sqrtA h cfg d)

/-- Concrete diagram for the C4 counterexample: one element with no
coordinates, so the force-directed pass derives its initial position from
the salted string hash. -/
def c4d : C4Diagram := ⟨[⟨"a", "A", .component, [], none, none, .element⟩], [], none⟩

/-- Concrete diagram for the C9 theorems: one component with no
coordinates. -/
def c9d : C4Diagram := ⟨[⟨"a", "A", .component, [], none, none, .element⟩], [], none⟩

/-- The diagram optimize_diagram returns for c9d under the default
(hierarchical) configuration: same element with computed coordinates. -/
def c9expected : C4Diagram :=
  ⟨[⟨"a", "A", .component, [], some 600, some 2150, .element⟩], [],
   some []⟩

/-- A diagram whose metadata already carries the clusters key (as every
diagram previously returned by the optimizer does) and whose two components
form clusters: the call mutates it through the shared list. -/
def c9mut : C4Diagram :=
  ⟨[⟨"a", "A", .component, [], none, none, .element⟩,
    ⟨"b", "B", .component, [], none, none, .element⟩], [], some []⟩

/-- Concrete diagram for the C6 counterexample: one relationship a→b and
one b→a. -/
def c6d : C4Diagram :=
  ⟨[⟨"a", "A", .component, [], none, none, .element⟩,
    ⟨"b", "B", .component, [], none, none, .element⟩],
   [⟨"r1", "a", "b", "x", []⟩, ⟨"r2", "b", "a", "y", []⟩], none⟩

/-- Concrete diagram for the C1 witness: two components and one
relationship between them. -/
def c1d : C4Diagram :=
  ⟨[⟨"a", "A", .component, [], none, none, .element⟩,
    ⟨"b", "B", .component, [], none, none, .element⟩],
   [⟨"r1", "a", "b", "x", []⟩], none⟩

/-- Fresh element for the C1 witness. -/
def c1e : C4Element := ⟨"c", "C", .component, [], none, none, .element⟩

/-- Fresh relationship for the C1 witness. -/
def c1r : C4Relationship := ⟨"r2", "b", "a", "y", []⟩

/-- The diagram the default-configuration pipeline returns for c1d. -/
def c1opt : C4Diagram :=
  ⟨[⟨"a", "A", .component,
     [("cluster_id", "cluster_0"), ("cluster_type", "responsibility")],
     some 325, some 2150, .element⟩,
    ⟨"b", "B", .component,
     [("cluster_id", "cluster_0"), ("cluster_type", "responsibility")],
     some 875, some 2150, .element⟩],
   [⟨"r1", "a", "b", "x", []⟩],
   some [⟨"element_type", "Component Cluster", ["a", "b"]⟩,
    ⟨"responsibility", "unknown Components", ["a", "b"]⟩]⟩

/-- The default configuration with the force-directed layout strategy. -/
def c1cfgF : OptimizationConfig :=
  { defaultConfig with layout_strategy := LayoutStrategy.force_directed }

/-- The diagram the force-directed pipeline returns for c1d with the
all-zero hash: both elements initialise at (50, 50); the zero distance
vectors produce zero net forces, so the simulation converges after one
iteration with the positions unchanged. -/
def c1fopt : C4Diagram :=
  ⟨[⟨"a", "A", .component,
     [("cluster_id", "cluster_0"), ("cluster_type", "responsibility")],
     some 50, some 50, .element⟩,
    ⟨"b", "B", .component,
     [("cluster_id", "cluster_0"), ("cluster_type", "responsibility")],
     some 50, some 50, .element⟩],
   [⟨"r1", "a", "b", "x", []⟩],
   some [⟨"element_type", "Component Cluster", ["a", "b"]⟩,
    ⟨"responsibility", "unknown Components", ["a", "b"]⟩]⟩

/-- The number of relationships targeting s whose source has not been
dequeued (is outside P) — the quantity the in_degree dict tracks during
Kahn's algorithm. -/
def countIn (rels : List C4Relationship) (s : String) (P : List String) :
    Int :=
  (rels.countP (fun r => r.target_id = s ∧ r.source_id ∉ P) : Int)

/-- The number of still-unscanned relationships from the current node c
targeting s, during the inner for-loop of one Kahn iteration. -/
def cntC (c : String) (rs : List C4Relationship) (s : String) : Int :=
  (rs.countP (fun r => r.target_id = s ∧ r.source_id = c) : Int)

/-- Acyclicity of the relationship graph, phrased through its standard
finite-graph characterisation: a ranking that strictly increases along
every edge (equivalently, no directed cycle exists; see
HasTopoRank.no_self_loop for the instance of that direction used here). -/
def HasTopoRank (rels : List C4Relationship) : Prop :=
  ∃ rank : String → Nat, ∀ r ∈ rels, rank r.source_id < rank r.target_id

/-- Concrete diagram for the C8 witness: the chain a→b→c. -/
def c8d : C4Diagram :=
  ⟨[⟨"a", "A", .component, [], none, none, .element⟩,
    ⟨"b", "B", .component, [], none, none, .element⟩,
    ⟨"c", "C", .component, [], none, none, .element⟩],
   [⟨"r1", "a", "b", "x", []⟩, ⟨"r2", "b", "c", "y", []⟩], none⟩

/-- A topological rank for c8d's relationship graph. -/
def c8rank : String → Nat :=
  fun s => if s = "b" then 1 else if s = "c" then 2 else 0

/-- Claim C10: on a diagram with zero elements the circular layout raises an
uncaught ZeroDivisionError at the angle-step division by the element count,
and the grid layout computes zero rows and raises an uncaught
ZeroDivisionError dividing the canvas height by them; neither returns a
diagram.  Quantified over every abstraction of pi/cos/sin and every
configuration. -/
theorem c10_empty_diagram_division_by_zero (piA : ℚ) (cosA sinA : ℚ → ℚ)
    (cfg : OptimizationConfig) (d : C4Diagram) (h : d.elements = []) :
    apply_circular_layout piA cosA sinA cfg d =
      Except.error "ZeroDivisionError: float division by zero" ∧
    (d.elements.length + (Nat.sqrt d.elements.length + 1) - 1) /
      (Nat.sqrt d.elements.length + 1) = 0 ∧
    apply_grid_layout cfg d =
      Except.error "ZeroDivisionError: float division by zero" := by
  refine ⟨?_, ?_, ?_⟩
  · simp [apply_circular_layout, h]
  · simp [h]
  · simp [apply_grid_layout, h]

/-- Witness for c10_empty_diagram_division_by_zero at concrete inputs. -/
theorem c10_empty_diagram_division_by_zero_witness :
    (C4Diagram.mk [] [] none).elements = [] ∧
    apply_circular_layout 3 id id defaultConfig (C4Diagram.mk [] [] none) =
      Except.error "ZeroDivisionError: float division by zero" ∧
    apply_grid_layout defaultConfig (C4Diagram.mk [] [] none) =
      Except.error "ZeroDivisionError: float division by zero" :=
  ⟨rfl,
   (c10_empty_diagram_division_by_zero 3 id id defaultConfig _ rfl).1,
   (c10_empty_diagram_division_by_zero 3 id id defaultConfig _ rfl).2.2⟩

set_option maxRecDepth 8000 in
/-- Claim C4 counterexample: two runs of the force-directed position
initialisation on the same diagram and configuration, differing only in the
process's string-hash function (fun _ => 0 versus fun _ => 1, both values a
salted Python hash can take), produce different coordinates — so outputs
are not identical across runs. -/
theorem c4_hash_dependent_positions_counterexample :
    force_init_positions (fun _ => 0) defaultConfig c4d ≠
      force_init_positions (fun _ => 1) defaultConfig c4d :=
  of_decide_eq_true (by with_unfolding_all rfl)

/-- Claim C4 (amended): optimization is deterministic once the per-process
string-hash function is fixed: runs whose hash functions agree produce
identical force-directed initial positions (and the rest of the pipeline is
a pure function of its inputs).  Across interpreter processes Python's
salted hash differs, and the initial positions of coordinate-free elements
can differ with it (see the counterexample). -/
theorem c4_deterministic_for_fixed_hash (h1 h2 : String → Int)
    (cfg : OptimizationConfig) (d : C4Diagram)
    (hagree : ∀ s, h1 s = h2 s) :
    force_init_positions h1 cfg d = force_init_positions h2 cfg d := by
  simp only [force_init_positions, hagree]

/-- Witness for c4_deterministic_for_fixed_hash at concrete inputs. -/
theorem c4_deterministic_for_fixed_hash_witness :
    (∀ s : String, (fun _ : String => (5 : Int)) s =
      (fun _ : String => (5 : Int)) s) ∧
    force_init_positions (fun _ => 5) defaultConfig c4d =
      force_init_positions (fun _ => 5) defaultConfig c4d :=
  ⟨fun _ => rfl,
   c4_deterministic_for_fixed_hash (fun _ => 5) (fun _ => 5) defaultConfig
     c4d (fun _ => rfl)⟩

/-- In the diagram produced by the validation pass every element carries
both coordinates. -/
theorem validate_optimization_coords (cfg : OptimizationConfig)
    (d : C4Diagram) :
    ∀ e ∈ (validate_optimization cfg d).elements,
      e.x.isSome ∧ e.y.isSome := by
  intro e he
  simp only [validate_optimization, List.mem_map] at he
  rcases he with ⟨e0, -, rfl⟩
  by_cases h : e0.x = none ∨ e0.y = none
  · simp [h]
  · push_neg at h
    rw [if_neg (by simpa using h)]
    exact ⟨Option.isSome_iff_ne_none.mpr h.1,
           Option.isSome_iff_ne_none.mpr h.2⟩

/-- Claim C9 (amended): optimize_diagram does not optimize in place: it
deep-copies the argument, applies every pass to the copy, and returns the
copy, every element of which carries x/y coordinates.  The caller's diagram
keeps its elements and its relationships, and when its metadata lacks the
clusters key it is entirely unchanged; the one write that can reach the
argument is the append to a pre-existing metadata clusters list, which the
shallow metadata.copy() leaves shared between the copy and the original
(see input_after_optimize). -/
theorem c9_optimize_returns_separate_copy (piA : ℚ)
    (cosA sinA sqrtA : ℚ → ℚ) (h : String → Int)
    (cfg : OptimizationConfig) (d d2 : C4Diagram)
    (hok : (optimize_call piA cosA sinA sqrtA h cfg d).2 = Except.ok d2) :
    (optimize_call piA cosA sinA sqrtA h cfg d).1.elements = d.elements ∧
    (optimize_call piA cosA sinA sqrtA h cfg d).1.relationships =
      d.relationships ∧
    (d.metadata_clusters = none →
      (optimize_call piA cosA sinA sqrtA h cfg d).1 = d) ∧
    ∀ e ∈ d2.elements, e.x.isSome ∧ e.y.isSome := by
  have hin : (input_after_optimize cfg d).elements = d.elements ∧
      (input_after_optimize cfg d).relationships = d.relationships := by
    unfold input_after_optimize
    split
    · exact ⟨rfl, rfl⟩
    · split
      · exact ⟨rfl, rfl⟩
      · split
        · exact ⟨rfl, rfl⟩
        · exact ⟨rfl, rfl⟩
  refine ⟨hin.1, hin.2, ?_, ?_⟩
  · intro hnone
    simp only [optimize_call, input_after_optimize]
    split
    · rfl
    · rw [hnone]
  · simp only [optimize_call, optimize_diagram] at hok
    split at hok
    · exact absurd hok (by simp)
    · split at hok
      · exact absurd hok (by simp)
      · rw [Except.ok.injEq] at hok
        subst hok
        exact validate_optimization_coords cfg _

set_option maxRecDepth 8000 in
/-- Claim C9 counterexample: after the call the passed-in diagram (whose
metadata lacks the clusters key, like every freshly assembled diagram)
still has no coordinates — the computed positions appear only on the
separately returned copy, which differs from the input.  optimize_diagram
copies first and mutates the copy, the opposite of in-place
optimization. -/
theorem c9_not_in_place_counterexample :
    (optimize_call 3 id id id (fun _ => 0) defaultConfig c9d).1 = c9d ∧
    c9d.elements.map (fun e => e.x) = [none] ∧
    (optimize_call 3 id id id (fun _ => 0) defaultConfig c9d).2 =
      Except.ok c9expected ∧
    c9expected ≠ c9d :=
  of_decide_eq_true (by with_unfolding_all rfl)

set_option maxRecDepth 8000 in
/-- Witness for c9_optimize_returns_separate_copy at concrete inputs. -/
theorem c9_optimize_returns_separate_copy_witness :
    (optimize_call 3 id id id (fun _ => 0) defaultConfig c9d).2 =
      Except.ok c9expected ∧
    ((optimize_call 3 id id id (fun _ => 0) defaultConfig c9d).1.elements =
      c9d.elements ∧
     (optimize_call 3 id id id (fun _ => 0) defaultConfig
       c9d).1.relationships = c9d.relationships ∧
     (c9d.metadata_clusters = none →
      (optimize_call 3 id id id (fun _ => 0) defaultConfig c9d).1 = c9d) ∧
     ∀ e ∈ c9expected.elements, e.x.isSome ∧ e.y.isSome) :=
  ⟨of_decide_eq_true (by with_unfolding_all rfl),
   c9_optimize_returns_separate_copy 3 id id id (fun _ => 0) defaultConfig
     c9d c9expected (of_decide_eq_true (by with_unfolding_all rfl))⟩

/-- The aliasing is real in the model: on an input that already carries the
metadata clusters key, the call appends the computed clusters to the
caller's shared list and the passed-in diagram ends up changed (although
its elements and relationships stay intact). -/
theorem input_after_optimize_extends_shared_clusters :
    input_after_optimize defaultConfig c9mut ≠ c9mut ∧
    (input_after_optimize defaultConfig c9mut).metadata_clusters =
      some [⟨"element_type", "Component Cluster", ["a", "b"]⟩,
        ⟨"responsibility", "unknown Components", ["a", "b"]⟩] ∧
    (input_after_optimize defaultConfig c9mut).elements = c9mut.elements ∧
    (input_after_optimize defaultConfig c9mut).relationships =
      c9mut.relationships := by
  decide

end DiagramOptimizer

/-- Claim C2 counterexample: inserting an element whose (kind, name) pair
duplicates a present element's raises no error — add_element succeeds and
appends it, because the source checks ids only. -/
theorem c2_dup_kind_name_not_rejected_counterexample :
    (c2e.elementType, c2e.name) =
      ((c2d.elements.map (fun e => (e.elementType, e.name))).head?.getD
        (.person, "")) ∧
    c2d.add_element c2e =
      Except.ok ⟨[⟨"id1", "X", .component, [], none, none, .element⟩,
                  ⟨"id2", "X", .component, [], none, none, .element⟩], [], none⟩ := by
  decide

/-- Claim C2 (amended): add_element rejects, immediately at insertion,
exactly the elements whose id duplicates a present element's id; an element
duplicating only the (kind, name) pair of a present element is accepted and
appended (duplicate (kind, name) pairs are reported only by the post-hoc
validate, as the C3 development shows). -/
theorem c2_add_element_checks_ids_only (d : C4Diagram) (e : C4Element) :
    ((∃ x ∈ d.elements, x.id = e.id) →
      d.add_element e =
        Except.error ("Element with ID " ++ e.id ++ " already exists")) ∧
    ((∀ x ∈ d.elements, x.id ≠ e.id) →
      d.add_element e = Except.ok { d with elements := d.elements ++ [e] }) := by
  constructor
  · intro hex
    have hany : d.elements.any (fun x => x.id = e.id) = true := by
      rcases hex with ⟨x, hx, hxe⟩
      exact List.any_eq_true.mpr ⟨x, hx, by simp [hxe]⟩
    simp [C4Diagram.add_element, hany]
  · intro hall
    have hany : d.elements.any (fun x => x.id = e.id) = false := by
      simp only [List.any_eq_false, decide_eq_true_eq]
      exact hall
    simp [C4Diagram.add_element, hany]

/-- Witness for c2_add_element_checks_ids_only at concrete inputs. -/
theorem c2_add_element_checks_ids_only_witness :
    (∀ x ∈ c2d.elements, x.id ≠ c2e.id) ∧
    c2d.add_element c2e =
      Except.ok { c2d with elements := c2d.elements ++ [c2e] } :=
  ⟨by decide, (c2_add_element_checks_ids_only c2d c2e).2 (by decide)⟩

/-- Claim C3 counterexample: two elements share an id, yet validate returns
the empty list — the source's validate never compares element ids. -/
theorem c3_validate_misses_dup_ids_counterexample :
    ¬ (c3d.elements.map (fun e => e.id)).Nodup ∧ c3d.validate = [] := by
  decide

/-- The duplicated-(kind,name) scan reports nothing exactly when the keys
are distinct and also avoid the accumulator. -/
theorem dupKindNameErrors_eq_nil (els : List C4Element) :
    ∀ seen : List (ElementType × String),
      (dupKindNameErrors els seen = [] ↔
        (els.map (fun e => (e.elementType, e.name))).Nodup ∧
        ∀ k ∈ els.map (fun e => (e.elementType, e.name)), k ∉ seen) := by
  induction els with
  | nil => intro seen; simp [dupKindNameErrors]
  | cons e rest ih =>
    intro seen
    by_cases hmem : (e.elementType, e.name) ∈ seen
    · simp only [dupKindNameErrors, if_pos hmem, List.cons_append,
        List.map_cons]
      constructor
      · intro h; exact absurd h (by simp)
      · rintro ⟨-, hall⟩
        exact absurd hmem (hall _ (List.mem_cons_self _ _))
    · simp only [dupKindNameErrors, if_neg hmem, List.nil_append,
        List.map_cons, ih, List.nodup_cons, List.mem_cons]
      constructor
      · rintro ⟨hnd, hall⟩
        refine ⟨⟨?_, hnd⟩, ?_⟩
        · intro hk
          have := hall _ hk
          simp at this
        · rintro k (rfl | hk)
          · exact hmem
          · have := hall _ hk
            simp at this
            exact this.2
      · rintro ⟨⟨hkey, hnd⟩, hall⟩
        refine ⟨hnd, ?_⟩
        intro k hk
        simp only [List.mem_cons, not_or]
        exact ⟨fun hke => hkey (hke ▸ hk), hall _ (Or.inr hk)⟩

/-- The orphaned-endpoint scan reports nothing exactly when every
relationship endpoint is present. -/
theorem orphanErrs_eq_nil (d : C4Diagram) :
    (d.relationships.flatMap (fun r =>
      (if (elementIds d).contains r.source_id then [] else
        ["Relationship " ++ r.id ++ " has invalid source " ++ r.source_id]) ++
      (if (elementIds d).contains r.target_id then [] else
        ["Relationship " ++ r.id ++ " has invalid target " ++ r.target_id]))
        = [] ↔ ¬ hasOrphanRel d) := by
  rw [List.flatMap_eq_nil_iff]
  unfold hasOrphanRel
  constructor
  · intro h ⟨r, hr, hor⟩
    have := h r hr
    rcases hor with hs | ht
    · rw [if_neg (by simpa using hs)] at this
      simp at this
    · rcases List.append_eq_nil.mp this with ⟨-, h2⟩
      rw [if_neg (by simpa using ht)] at h2
      simp at h2
  · intro h r hr
    rw [if_pos, if_pos]
    · simp
    · by_contra hc
      exact h ⟨r, hr, Or.inr (by simpa using hc)⟩
    · by_contra hc
      exact h ⟨r, hr, Or.inl (by simpa using hc)⟩

/-- Claim C3 (amended): validate re-checks two of the three structural
invariants — it reports a violation exactly when some relationship endpoint
is absent or some (kind, name) pair repeats — and, being modelled as a pure
function, returns only the error list without changing the diagram.  It
does not detect duplicate element ids as such (see the counterexample). -/
theorem c3_validate_reports_orphans_and_dup_kind_names (d : C4Diagram) :
    C4Diagram.validate d ≠ [] ↔ hasOrphanRel d ∨ hasDupKindName d := by
  unfold C4Diagram.validate
  rw [Ne, List.append_eq_nil, not_and_or]
  constructor
  · rintro (h | h)
    · left
      by_contra hc
      exact h ((orphanErrs_eq_nil d).mpr hc)
    · right
      intro hnd
      exact h (((dupKindNameErrors_eq_nil d.elements []).mpr
        ⟨hnd, by simp⟩))
  · rintro (h | h)
    · left
      intro hc
      exact (orphanErrs_eq_nil d).mp hc h
    · right
      intro hc
      exact h ((dupKindNameErrors_eq_nil d.elements []).mp hc).1

namespace DiagramOptimizer

/-- Claim C5: two relationships with the same ordered endpoints, labeled
"uses" and "calls", merge into exactly one relationship carrying the first
relationship's identity, the concatenated label "uses / calls" and the
merged property map. -/
theorem c5_merge_uses_calls (d : C4Diagram) (a b i1 i2 : String)
    (p1 p2 : List (String × String))
    (hrels : d.relationships =
      [⟨i1, a, b, "uses", p1⟩, ⟨i2, a, b, "calls", p2⟩]) :
    (merge_duplicate_relationships d).relationships =
      [⟨i1, a, b, "uses / calls", dictMerge p1 p2⟩] := by
  have hml : merge_relationship_labels "uses" "calls" = "uses / calls" := by
    decide
  unfold merge_duplicate_relationships
  rw [hrels]
  simp only [List.foldl_cons, List.foldl_nil]
  have h1 : mergeStep [] ⟨i1, a, b, "uses", p1⟩ =
      [((a, b), ⟨i1, a, b, "uses", p1⟩)] := by
    simp [mergeStep]
  rw [h1]
  have h2 : mergeStep [((a, b), ⟨i1, a, b, "uses", p1⟩)]
      ⟨i2, a, b, "calls", p2⟩ =
      [((a, b), ⟨i1, a, b, "uses / calls", dictMerge p1 p2⟩)] := by
    simp [mergeStep, hml]
  rw [h2]
  simp

/-- Witness for c5_merge_uses_calls at concrete inputs. -/
theorem c5_merge_uses_calls_witness :
    (C4Diagram.mk [⟨"a", "A", .component, [], none, none, .element⟩,
        ⟨"b", "B", .component, [], none, none, .element⟩]
      [⟨"r1", "a", "b", "uses", []⟩, ⟨"r2", "a", "b", "calls", []⟩]
      none).relationships =
      [⟨"r1", "a", "b", "uses", []⟩, ⟨"r2", "a", "b", "calls", []⟩] ∧
    (merge_duplicate_relationships
      (C4Diagram.mk [⟨"a", "A", .component, [], none, none, .element⟩,
          ⟨"b", "B", .component, [], none, none, .element⟩]
        [⟨"r1", "a", "b", "uses", []⟩, ⟨"r2", "a", "b", "calls", []⟩]
        none)).relationships =
      [⟨"r1", "a", "b", "uses / calls", dictMerge [] []⟩] :=
  ⟨rfl, c5_merge_uses_calls _ "a" "b" "r1" "r2" [] [] rfl⟩

/-- Claim C6 counterexample: a→b and b→a survive the merge pass as two
separate relationships with equal unordered endpoint pairs — the grouping
key is the ordered pair, so opposite directions are never merged. -/
theorem c6_opposite_directions_not_merged_counterexample :
    (merge_duplicate_relationships c6d).relationships.map
      (fun r => (r.source_id, r.target_id)) = [("a", "b"), ("b", "a")] ∧
    (merge_duplicate_relationships c6d).relationships.length ≠ 1 := by
  decide

/-- Keys of the relationship_map after one fold step: unchanged when the
key was present, the new ordered pair appended when it was not. -/
theorem mergeStep_keys (entries : List ((String × String) × C4Relationship))
    (r : C4Relationship) :
    (mergeStep entries r).map (fun p => p.1) =
      if entries.any (fun p => p.1 = (r.source_id, r.target_id)) then
        entries.map (fun p => p.1)
      else entries.map (fun p => p.1) ++ [(r.source_id, r.target_id)] := by
  simp only [mergeStep]
  split
  · rw [List.map_map]
    congr 1
    funext p
    by_cases h : p.1 = (r.source_id, r.target_id) <;> simp [h]
  · simp

/-- Every entry of the relationship_map fold keeps its relationship's
ordered endpoint pair equal to its key. -/
theorem mergeFold_endpoints (rels : List C4Relationship) :
    ∀ entries, (∀ p ∈ entries, (p.2.source_id, p.2.target_id) = p.1) →
      ∀ p ∈ List.foldl mergeStep entries rels,
        (p.2.source_id, p.2.target_id) = p.1 := by
  induction rels with
  | nil => intro entries h; simpa using h
  | cons r rs ih =>
    intro entries h
    rw [List.foldl_cons]
    apply ih
    intro p hp
    simp only [mergeStep] at hp
    split at hp
    · rcases List.mem_map.mp hp with ⟨q, hq, rfl⟩
      by_cases hk : q.1 = (r.source_id, r.target_id)
      · simp only [if_pos hk]
        exact h q hq
      · simp only [if_neg hk]
        exact h q hq
    · rcases List.mem_append.mp hp with h1 | h1
      · exact h _ h1
      · simp only [List.mem_singleton] at h1
        subst h1
        rfl

/-- The relationship_map fold keeps its keys duplicate-free. -/
theorem mergeFold_keys_nodup (rels : List C4Relationship) :
    ∀ entries, ((entries.map (fun p => p.1)).Nodup) →
      ((List.foldl mergeStep entries rels).map (fun p => p.1)).Nodup := by
  induction rels with
  | nil => intro entries h; simpa using h
  | cons r rs ih =>
    intro entries h
    rw [List.foldl_cons]
    apply ih
    rw [mergeStep_keys]
    split
    · exact h
    · rename_i hany
      have hany' : (entries.any fun p => decide
          (p.1 = (r.source_id, r.target_id))) = false := by
        rwa [Bool.not_eq_true] at hany
      have hnot : (r.source_id, r.target_id) ∉ entries.map (fun p => p.1) := by
        intro hmem
        rcases List.mem_map.mp hmem with ⟨q, hq, hq1⟩
        have hq2 := List.any_eq_false.mp hany' q hq
        simp [hq1] at hq2
      simp [List.nodup_append, h, hnot]

/-- Claim C6 (amended): the merge pass groups by the ordered pair
(source id, target id): every two distinct surviving relationships differ
in that ordered pair.  Opposite directions between the same two elements
are not merged (see the counterexample). -/
theorem c6_merge_groups_by_ordered_pair (d : C4Diagram) :
    ((merge_duplicate_relationships d).relationships.map
      (fun r => (r.source_id, r.target_id))).Nodup := by
  unfold merge_duplicate_relationships
  have hok := mergeFold_endpoints d.relationships [] (by simp)
  have hnd := mergeFold_keys_nodup d.relationships [] (by simp)
  simp only [List.map_map]
  have heq : ∀ p ∈ List.foldl mergeStep [] d.relationships,
      ((fun r : C4Relationship => (r.source_id, r.target_id)) ∘
        (fun p => p.2)) p = p.1 := fun p hp => hok p hp
  rw [List.map_congr_left heq]
  exact hnd

/-- Referential integrity transfers to any diagram with the same element
ids whose relationships all borrow their endpoint pair from a valid
relationship. -/
theorem RelsValid_of_endpoints (d d' : C4Diagram)
    (hids : elementIds d' = elementIds d)
    (hrel : ∀ r' ∈ d'.relationships, ∃ r ∈ d.relationships,
      r'.source_id = r.source_id ∧ r'.target_id = r.target_id)
    (h : RelsValid d) : RelsValid d' := by
  intro r' hr'
  rcases hrel r' hr' with ⟨r, hr, hs, ht⟩
  rw [hids, hs, ht]
  exact h r hr

/-- Every key of the relationship_map fold is a key of the starting entries
or the ordered endpoint pair of a folded relationship. -/
theorem mergeFold_keys_from (rels : List C4Relationship) :
    ∀ entries p, p ∈ List.foldl mergeStep entries rels →
      p.1 ∈ entries.map (fun q => q.1) ∨
      ∃ r0 ∈ rels, p.1 = (r0.source_id, r0.target_id) := by
  induction rels with
  | nil =>
    intro entries p hp
    exact Or.inl (List.mem_map_of_mem _ (by simpa using hp))
  | cons r rs ih =>
    intro entries p hp
    rw [List.foldl_cons] at hp
    rcases ih (mergeStep entries r) p hp with h1 | ⟨r0, hr0, hk⟩
    · rw [mergeStep_keys] at h1
      split at h1
      · exact Or.inl h1
      · rcases List.mem_append.mp h1 with h2 | h2
        · exact Or.inl h2
        · simp only [List.mem_singleton] at h2
          exact Or.inr ⟨r, List.mem_cons_self _ _, h2⟩
    · exact Or.inr ⟨r0, List.mem_cons_of_mem _ hr0, hk⟩

/-- The merge pass preserves referential integrity. -/
theorem merge_preserves_RelsValid (d : C4Diagram) (h : RelsValid d) :
    RelsValid (merge_duplicate_relationships d) := by
  refine RelsValid_of_endpoints d _ rfl ?_ h
  intro r' hr'
  simp only [merge_duplicate_relationships, List.mem_map] at hr'
  rcases hr' with ⟨p, hp, rfl⟩
  have hend := mergeFold_endpoints d.relationships [] (by simp) p hp
  rcases mergeFold_keys_from d.relationships [] p hp with h1 | ⟨r0, hr0, hk⟩
  · simp at h1
  · refine ⟨r0, hr0, ?_, ?_⟩
    · have := congrArg Prod.fst (hend.trans hk)
      simpa using this
    · have := congrArg Prod.snd (hend.trans hk)
      simpa using this

/-- The transitive-simplification pass preserves referential integrity. -/
theorem simplify_preserves_RelsValid (d : C4Diagram) (h : RelsValid d) :
    RelsValid (simplify_transitive_relationships d) := by
  refine RelsValid_of_endpoints d _ rfl ?_ h
  intro r' hr'
  simp only [simplify_transitive_relationships, List.mem_filter] at hr'
  exact ⟨r', hr'.1, rfl, rfl⟩

/-- The label-shortening pass preserves referential integrity. -/
theorem labels_preserve_RelsValid (cfg : OptimizationConfig) (d : C4Diagram)
    (h : RelsValid d) : RelsValid (optimize_relationship_labels cfg d) := by
  refine RelsValid_of_endpoints d _ rfl ?_ h
  intro r' hr'
  simp only [optimize_relationship_labels, List.mem_map] at hr'
  rcases hr' with ⟨r, hr, rfl⟩
  refine ⟨r, hr, ?_, ?_⟩ <;> split <;> rfl

/-- The whole relationship pass preserves referential integrity. -/
theorem optimize_relationships_preserves_RelsValid
    (cfg : OptimizationConfig) (d : C4Diagram) (h : RelsValid d) :
    RelsValid (optimize_relationships cfg d) := by
  unfold optimize_relationships
  apply labels_preserve_RelsValid
  split
  · apply simplify_preserves_RelsValid
    split
    · exact merge_preserves_RelsValid d h
    · exact h
  · split
    · exact merge_preserves_RelsValid d h
    · exact h

/-- Tagging cluster properties onto one element keeps the element-id list. -/
theorem setClusterProps_ids (eid cid ct : String) (els : List C4Element) :
    (setClusterProps eid cid ct els).map (fun e => e.id) =
      els.map (fun e => e.id) := by
  induction els with
  | nil => rfl
  | cons e rest ih =>
    simp only [setClusterProps]
    split
    · simp
    · simp [ih]

/-- The double cluster fold keeps the element-id list. -/
theorem clusterFold_ids (cid : String) (cs : List Cluster) :
    ∀ els : List C4Element,
      ((cs.foldl (fun acc c => c.elems.foldl
          (fun acc2 eid => setClusterProps eid cid c.ctype acc2) acc)
        els).map (fun e => e.id)) = els.map (fun e => e.id) := by
  induction cs with
  | nil => intro els; rfl
  | cons c rest ih =>
    intro els
    rw [List.foldl_cons, ih]
    generalize c.elems = l
    induction l generalizing els with
    | nil => rfl
    | cons eid l2 ih2 =>
      rw [List.foldl_cons, ih2, setClusterProps_ids]

/-- The clustering pass keeps the element-id list and the relationships. -/
theorem apply_clustering_ids (cfg : OptimizationConfig) (d : C4Diagram) :
    elementIds (apply_clustering cfg d) = elementIds d ∧
    (apply_clustering cfg d).relationships = d.relationships := by
  unfold apply_clustering elementIds
  split
  · exact ⟨rfl, rfl⟩
  · exact ⟨clusterFold_ids _ _ d.elements, rfl⟩

/-- The hierarchical placement keeps the element-id list. -/
theorem placeHier_ids (cfg : OptimizationConfig) (all : List C4Element)
    (ySpacing : ℚ) (rest : List C4Element) :
    ∀ seen, (placeHier cfg all ySpacing seen rest).map (fun e => e.id) =
      rest.map (fun e => e.id) := by
  induction rest with
  | nil => intro seen; rfl
  | cons e r2 ih =>
    intro seen
    simp only [placeHier, List.map_cons, ih]

/-- The layered placement keeps the element-id list. -/
theorem placeLayered_ids (cfg : OptimizationConfig) (all : List C4Element)
    (levels : String → Nat) (ySpacing : ℚ) (rest : List C4Element) :
    ∀ seen, (placeLayered cfg all levels ySpacing seen rest).map
      (fun e => e.id) = rest.map (fun e => e.id) := by
  induction rest with
  | nil => intro seen; rfl
  | cons e r2 ih =>
    intro seen
    simp only [placeLayered, List.map_cons, ih]

/-- Indexed mapping that keeps ids keeps the element-id list. -/
theorem mapWithIndex_ids (f : Nat → C4Element → C4Element)
    (hf : ∀ i e, (f i e).id = e.id) (l : List C4Element) :
    (mapWithIndex f l).map (fun e => e.id) = l.map (fun e => e.id) := by
  suffices h : ∀ i l2, (mapWithIndex.go f i l2).map (fun e => e.id) =
      l2.map (fun e => e.id) from h 0 l
  intro i l2
  induction l2 generalizing i with
  | nil => rfl
  | cons e r2 ih => simp only [mapWithIndex.go, List.map_cons, ih, hf]

/-- The hash initialisation keeps the element-id list. -/
theorem force_init_positions_ids (h : String → Int)
    (cfg : OptimizationConfig) (d : C4Diagram) :
    (force_init_positions h cfg d).elements.map (fun e => e.id) =
      d.elements.map (fun e => e.id) := by
  unfold force_init_positions
  rw [List.map_map]
  congr 1
  funext e
  by_cases hx : e.x = none ∨ e.y = none <;> simp [hx]

/-- The apply-forces loop keeps the element-id list. -/
theorem applyGo_ids (cfg : OptimizationConfig) (forces : String → ℚ × ℚ) :
    ∀ (els : List C4Element) (m : ℚ),
      (applyGo cfg forces els m).1.map (fun e => e.id) =
        els.map (fun e => e.id) := by
  intro els
  induction els with
  | nil => intro m; rfl
  | cons e rest ih =>
    intro m
    simp only [applyGo, List.map_cons, ih]

/-- The force iteration keeps the element-id list. -/
theorem forceIterate_ids (cfg : OptimizationConfig) (sqrtA : ℚ → ℚ)
    (rels : List C4Relationship) :
    ∀ (k : Nat) (els : List C4Element),
      (forceIterate cfg sqrtA rels k els).map (fun e => e.id) =
        els.map (fun e => e.id) := by
  intro k
  induction k with
  | zero => intro els; rfl
  | succ k ih =>
    intro els
    simp only [forceIterate]
    split
    · exact applyGo_ids cfg _ els 0
    · rw [ih, applyGo_ids]

/-- A successful deep copy returns the argument's value. -/
theorem deep_copy_diagram_ok (d o : C4Diagram)
    (h : deep_copy_diagram d = Except.ok o) : o = d := by
  unfold deep_copy_diagram at h
  split at h
  · rw [Except.ok.injEq] at h
    exact h.symm
  · exact absurd h (by simp)

/-- The layout pass keeps the element-id list and the relationships on
every successful run, whatever the strategy. -/
theorem optimize_layout_ids (piA : ℚ) (cosA sinA sqrtA : ℚ → ℚ)
    (h : String → Int) (cfg : OptimizationConfig) (d d2 : C4Diagram)
    (hok : optimize_layout piA cosA sinA sqrtA h cfg d = Except.ok d2) :
    elementIds d2 = elementIds d ∧ d2.relationships = d.relationships := by
  unfold optimize_layout at hok
  split at hok
  · rw [Except.ok.injEq] at hok
    subst hok
    exact ⟨placeHier_ids cfg d.elements _ d.elements [], rfl⟩
  · simp only [apply_circular_layout] at hok
    split at hok
    · exact absurd hok (by simp)
    · rw [Except.ok.injEq] at hok
      subst hok
      refine ⟨?_, rfl⟩
      apply mapWithIndex_ids
      intro i e
      rfl
  · rw [Except.ok.injEq] at hok
    subst hok
    refine ⟨?_, rfl⟩
    simp only [apply_force_directed_layout, elementIds]
    rw [forceIterate_ids, force_init_positions_ids]
  · simp only [apply_grid_layout] at hok
    split at hok
    · exact absurd hok (by simp)
    · rw [Except.ok.injEq] at hok
      subst hok
      refine ⟨?_, rfl⟩
      apply mapWithIndex_ids
      intro i e
      rfl
  · simp only [apply_layered_layout] at hok
    split at hok
    · rw [Except.ok.injEq] at hok
      subst hok
      exact ⟨rfl, rfl⟩
    · rw [Except.ok.injEq] at hok
      subst hok
      exact ⟨placeLayered_ids cfg d.elements _ _ d.elements [], rfl⟩

/-- The validation pass keeps the element-id list and the relationships. -/
theorem validate_optimization_ids (cfg : OptimizationConfig)
    (d : C4Diagram) :
    elementIds (validate_optimization cfg d) = elementIds d ∧
    (validate_optimization cfg d).relationships = d.relationships := by
  refine ⟨?_, rfl⟩
  unfold validate_optimization elementIds
  simp only [List.map_map]
  congr 1
  funext e
  by_cases h : e.x = none ∨ e.y = none <;> simp [h]

/-- Claim C7: on a diagram whose relationships are exactly the triangle
a→b, b→c, a→c over three distinct ids (with distinct relationship ids, as
uuid construction guarantees), the transitive-simplification pass removes
a→c and keeps a→b and b→c. -/
theorem c7_transitive_triangle (d : C4Diagram)
    (a b c iab ibc iac lab lbc lac : String)
    (pab pbc pac : List (String × String))
    (hrels : d.relationships =
      [⟨iab, a, b, lab, pab⟩, ⟨ibc, b, c, lbc, pbc⟩, ⟨iac, a, c, lac, pac⟩])
    (hab : a ≠ b) (hbc : b ≠ c) (hac : a ≠ c)
    (hi1 : iab ≠ iac) (hi2 : ibc ≠ iac) :
    (simplify_transitive_relationships d).relationships =
      [⟨iab, a, b, lab, pab⟩, ⟨ibc, b, c, lbc, pbc⟩] := by
  have hadjA : adjTargets d a = [b, c] := by
    simp [adjTargets, hrels, List.filter, Ne.symm hab, hac, Ne.symm hac]
  have hadjB : adjTargets d b = [c] := by
    simp [adjTargets, hrels, List.filter, hab, Ne.symm hbc]
  have hadjC : adjTargets d c = [] := by
    simp [adjTargets, hrels, List.filter, hbc, hac, Ne.symm hac, Ne.symm hbc]
  have hr1 : transRemoved d ⟨iab, a, b, lab, pab⟩ = false := by
    simp [transRemoved, hadjA, hadjB, hadjC, Ne.symm hbc]
  have hr2 : transRemoved d ⟨ibc, b, c, lbc, pbc⟩ = false := by
    simp [transRemoved, hadjB]
  have hr3 : transRemoved d ⟨iac, a, c, lac, pac⟩ = true := by
    simp [transRemoved, hadjA, hadjB, hadjC, hbc]
  unfold simplify_transitive_relationships
  rw [hrels]
  simp only [List.filter, hr1, hr2, hr3]
  simp [hi1, hi2]

/-- Referential integrity transfers along equal element ids and equal
relationship lists. -/
theorem RelsValid_of_same (d d' : C4Diagram)
    (hids : elementIds d' = elementIds d)
    (hrels : d'.relationships = d.relationships) (h : RelsValid d) :
    RelsValid d' :=
  RelsValid_of_endpoints d d' hids
    (fun r' hr' => ⟨r', by rw [← hrels]; exact hr', rfl, rfl⟩) h

/-- Claim C1: the three mutating operations (add_element on success,
add_relationship on success, remove_element) and the optimizer passes — the
merge pass, the transitive-simplification pass, and the whole
optimize_diagram pipeline on any successful run — preserve the invariant
that every relationship's source and target ids name present elements. -/
theorem c1_invariant_preservation :
    (∀ (d : C4Diagram) (e : C4Element) (d' : C4Diagram),
      RelsValid d → d.add_element e = Except.ok d' → RelsValid d') ∧
    (∀ (d : C4Diagram) (r : C4Relationship) (d' : C4Diagram),
      RelsValid d → d.add_relationship r = Except.ok d' → RelsValid d') ∧
    (∀ (d : C4Diagram) (eid : String),
      RelsValid d → RelsValid (d.remove_element eid).1) ∧
    (∀ d : C4Diagram, RelsValid d →
      RelsValid (merge_duplicate_relationships d)) ∧
    (∀ d : C4Diagram, RelsValid d →
      RelsValid (simplify_transitive_relationships d)) ∧
    (∀ (piA : ℚ) (cosA sinA sqrtA : ℚ → ℚ) (hh : String → Int)
      (cfg : OptimizationConfig) (d d2 : C4Diagram), RelsValid d →
      optimize_diagram piA cosA sinA sqrtA hh cfg d = Except.ok d2 →
      RelsValid d2) := by
  refine ⟨?_, ?_, ?_, ?_, ?_, ?_⟩
  · intro d e d' hRV hok
    unfold C4Diagram.add_element at hok
    split at hok
    · exact absurd hok (by simp)
    · rw [Except.ok.injEq] at hok
      subst hok
      intro r hr
      have h2 := hRV r hr
      simp only [elementIds, List.map_append, List.mem_append] at h2 ⊢
      exact ⟨Or.inl h2.1, Or.inl h2.2⟩
  · intro d r d' hRV hok
    unfold C4Diagram.add_relationship at hok
    split at hok
    · exact absurd hok (by simp)
    · split at hok
      · exact absurd hok (by simp)
      · rename_i hsrc htgt
        rw [not_not] at hsrc htgt
        rw [Except.ok.injEq] at hok
        subst hok
        intro r' hr'
        rcases List.mem_append.mp hr' with h1 | h1
        · exact hRV r' h1
        · simp only [List.mem_singleton] at h1
          subst h1
          constructor
          · simpa using hsrc
          · simpa using htgt
  · intro d eid hRV r hr
    simp only [C4Diagram.remove_element, List.mem_filter,
      decide_eq_true_eq] at hr
    rcases hr with ⟨hmem, hcond⟩
    have h2 := hRV r hmem
    have hin : ∀ s, s ∈ elementIds d → s ≠ eid →
        s ∈ (d.elements.filter (fun e => e.id ≠ eid)).map
          (fun e => e.id) := by
      intro s hs hne
      rcases List.mem_map.mp hs with ⟨e0, he0, rfl⟩
      exact List.mem_map_of_mem _
        (List.mem_filter.mpr ⟨he0, by simpa using hne⟩)
    exact ⟨hin _ h2.1 hcond.1, hin _ h2.2 hcond.2⟩
  · exact merge_preserves_RelsValid
  · exact simplify_preserves_RelsValid
  · intro piA cosA sinA sqrtA hh cfg d d2 hRV hok
    simp only [optimize_diagram] at hok
    split at hok
    · exact absurd hok (by simp)
    · rename_i o hcopy
      have hod : o = d := deep_copy_diagram_ok d o hcopy
      rw [hod] at hok
      split at hok
      · exact absurd hok (by simp)
      · rename_i o2 hlay
        rw [Except.ok.injEq] at hok
        subst hok
        have hRV1 : RelsValid (optimize_relationships cfg d) :=
          optimize_relationships_preserves_RelsValid cfg d hRV
        have hclu := apply_clustering_ids cfg (optimize_relationships cfg d)
        have hRV2 : RelsValid
            (apply_clustering cfg (optimize_relationships cfg d)) :=
          RelsValid_of_same _ _ hclu.1 hclu.2 hRV1
        have hlayids := optimize_layout_ids piA cosA sinA sqrtA hh cfg _ _
          hlay
        have hRV3 : RelsValid o2 :=
          RelsValid_of_same _ _ hlayids.1 hlayids.2 hRV2
        have hvalids := validate_optimization_ids cfg o2
        exact RelsValid_of_same _ _ hvalids.1 hvalids.2 hRV3

set_option maxRecDepth 8000 in
/-- Witness for c1_invariant_preservation at concrete inputs: each conjunct
applied to c1d with its hypotheses discharged by computation; the pipeline
conjunct is exercised twice, under the default hierarchical strategy and
under the force-directed strategy. -/
theorem c1_invariant_preservation_witness :
    RelsValid c1d ∧
    c1d.add_element c1e =
      Except.ok { c1d with elements := c1d.elements ++ [c1e] } ∧
    RelsValid { c1d with elements := c1d.elements ++ [c1e] } ∧
    c1d.add_relationship c1r =
      Except.ok { c1d with relationships := c1d.relationships ++ [c1r] } ∧
    RelsValid { c1d with relationships := c1d.relationships ++ [c1r] } ∧
    RelsValid (c1d.remove_element "a").1 ∧
    RelsValid (merge_duplicate_relationships c1d) ∧
    RelsValid (simplify_transitive_relationships c1d) ∧
    optimize_diagram 3 id id id (fun _ => 0) defaultConfig c1d =
      Except.ok c1opt ∧
    RelsValid c1opt ∧
    optimize_diagram 3 id id id (fun _ => 0) c1cfgF c1d =
      Except.ok c1fopt ∧
    RelsValid c1fopt :=
  ⟨by decide, by decide,
   c1_invariant_preservation.1 c1d c1e _ (by decide) (by decide),
   by decide,
   c1_invariant_preservation.2.1 c1d c1r _ (by decide) (by decide),
   c1_invariant_preservation.2.2.1 c1d "a" (by decide),
   c1_invariant_preservation.2.2.2.1 c1d (by decide),
   c1_invariant_preservation.2.2.2.2.1 c1d (by decide),
   of_decide_eq_true (by with_unfolding_all rfl),
   c1_invariant_preservation.2.2.2.2.2 3 id id id (fun _ => 0)
     defaultConfig c1d c1opt (by decide)
     (of_decide_eq_true (by with_unfolding_all rfl)),
   of_decide_eq_true (by with_unfolding_all rfl),
   c1_invariant_preservation.2.2.2.2.2 3 id id id (fun _ => 0) c1cfgF c1d
     c1fopt (by decide)
     (of_decide_eq_true (by with_unfolding_all rfl))⟩

/-- Witness for c7_transitive_triangle at concrete inputs. -/
theorem c7_transitive_triangle_witness :
    (C4Diagram.mk [⟨"a", "A", .component, [], none, none, .element⟩,
        ⟨"b", "B", .component, [], none, none, .element⟩,
        ⟨"c", "C", .component, [], none, none, .element⟩]
      [⟨"r1", "a", "b", "x", []⟩, ⟨"r2", "b", "c", "y", []⟩,
       ⟨"r3", "a", "c", "z", []⟩] none).relationships =
      [⟨"r1", "a", "b", "x", []⟩, ⟨"r2", "b", "c", "y", []⟩,
       ⟨"r3", "a", "c", "z", []⟩] ∧
    ("a" : String) ≠ "b" ∧ ("b" : String) ≠ "c" ∧ ("a" : String) ≠ "c" ∧
    ("r1" : String) ≠ "r3" ∧ ("r2" : String) ≠ "r3" ∧
    (simplify_transitive_relationships
      (C4Diagram.mk [⟨"a", "A", .component, [], none, none, .element⟩,
          ⟨"b", "B", .component, [], none, none, .element⟩,
          ⟨"c", "C", .component, [], none, none, .element⟩]
        [⟨"r1", "a", "b", "x", []⟩, ⟨"r2", "b", "c", "y", []⟩,
         ⟨"r3", "a", "c", "z", []⟩] none)).relationships =
      [⟨"r1", "a", "b", "x", []⟩, ⟨"r2", "b", "c", "y", []⟩] :=
  ⟨rfl, by decide, by decide, by decide, by decide, by decide,
   c7_transitive_triangle _ "a" "b" "c" "r1" "r2" "r3" "x" "y" "z" [] [] []
     rfl (by decide) (by decide) (by decide) (by decide) (by decide)⟩

/-- A ranked (acyclic) relationship list has no self-loop. -/
theorem HasTopoRank.no_self_loop {rels : List C4Relationship}
    (h : HasTopoRank rels) : ∀ r ∈ rels, r.source_id ≠ r.target_id := by
  rcases h with ⟨rank, hr⟩
  intro r hrm heq
  have := hr r hrm
  rw [heq] at this
  omega

/-- countIn is never negative. -/
theorem countIn_nonneg (rels : List C4Relationship) (s : String)
    (P : List String) : 0 ≤ countIn rels s P :=
  Int.ofNat_nonneg _

/-- cntC is never negative. -/
theorem cntC_nonneg (c : String) (rs : List C4Relationship) (s : String) :
    0 ≤ cntC c rs s :=
  Int.ofNat_nonneg _

/-- With no sources dequeued, the tracked in-degree is the full in-degree. -/
theorem countIn_nil (rels : List C4Relationship) (s : String) :
    countIn rels s [] = indeg0 rels s := by
  unfold countIn indeg0
  norm_cast
  apply List.countP_congr
  intro r _
  simp

/-- Splitting the dequeued set: moving c out of the not-yet-dequeued world
separates the edges from c themselves. -/
theorem countIn_split (rels : List C4Relationship) (s c : String)
    (P : List String) (hc : c ∉ P) :
    countIn rels s P = countIn rels s (P ++ [c]) + cntC c rels s := by
  unfold countIn cntC
  have key : rels.countP (fun r => r.target_id = s ∧ r.source_id ∉ P) =
      rels.countP (fun r => r.target_id = s ∧ r.source_id ∉ P ++ [c]) +
      rels.countP (fun r => r.target_id = s ∧ r.source_id = c) := by
    induction rels with
    | nil => rfl
    | cons r rest ih =>
      rw [List.countP_cons, List.countP_cons, List.countP_cons]
      by_cases ht : r.target_id = s
      · by_cases hsc : r.source_id = c
        · have h1 : r.source_id ∉ P := by rw [hsc]; exact hc
          rw [if_pos (by simp [ht, h1]),
            if_neg (by simp [ht, hsc]),
            if_pos (by simp [ht, hsc])]
          omega
        · by_cases hsP : r.source_id ∈ P
          · rw [if_neg (by simp [hsP]),
              if_neg (by simp [hsP]),
              if_neg (by simp [hsc])]
            omega
          · rw [if_pos (by simp [ht, hsP]),
              if_pos (by simp [ht, hsP, hsc]),
              if_neg (by simp [hsc])]
            omega
      · rw [if_neg (by simp [ht]), if_neg (by simp [ht]),
          if_neg (by simp [ht])]
        omega
  exact_mod_cast key

/-- Unfolding one scan step of the inner loop on an edge from the dequeued
node. -/
theorem processRels_cons_match (c : String) (r : C4Relationship)
    (rs : List C4Relationship) (lv : String → Nat) (dg : String → Int)
    (q : List String) (h : r.source_id = c) :
    processRels c (r :: rs) (lv, dg, q) =
    processRels c rs
      (fun s => if s = r.target_id then
          max (lv r.target_id) (lv c + 1) else lv s,
       fun s => if s = r.target_id then dg r.target_id - 1 else dg s,
       if dg r.target_id - 1 = 0 then q ++ [r.target_id] else q) := by
  simp only [processRels, if_pos h]
  norm_num

/-- Unfolding one scan step of the inner loop on any other edge. -/
theorem processRels_cons_skip (c : String) (r : C4Relationship)
    (rs : List C4Relationship) (lv : String → Nat) (dg : String → Int)
    (q : List String) (h : ¬ r.source_id = c) :
    processRels c (r :: rs) (lv, dg, q) = processRels c rs (lv, dg, q) := by
  simp only [processRels, if_neg h]

/-- One cntC scan step on a matching edge. -/
theorem cntC_cons_match (c : String) (r : C4Relationship)
    (rs : List C4Relationship) (hsrc : r.source_id = c) :
    ∀ s, cntC c (r :: rs) s =
      cntC c rs s + (if r.target_id = s then 1 else 0) := by
  intro s
  unfold cntC
  rw [List.countP_cons]
  by_cases ht : r.target_id = s
  · rw [if_pos ht]
    simp [ht, hsrc]
  · rw [if_neg ht]
    simp [ht]

/-- One cntC scan step on a non-matching edge. -/
theorem cntC_cons_skip (c : String) (r : C4Relationship)
    (rs : List C4Relationship) (hsrc : r.source_id ≠ c) :
    ∀ s, cntC c (r :: rs) s = cntC c rs s := by
  intro s
  unfold cntC
  rw [List.countP_cons]
  simp [hsrc]

/-- Invariant preservation through the inner for-loop of one Kahn
iteration: scanning the remaining relationships rs of the dequeued node c
turns the mid-scan bookkeeping into the between-iterations bookkeeping for
the dequeued set P ++ [c]: the tracked in-degrees count the edges from
still-undequeued sources, dequeued-or-queued ids are distinct element ids
with tracked in-degree zero, every edge whose source is dequeued has been
relaxed, and every id whose tracked in-degree reached zero has been queued
or dequeued. -/
theorem processRels_inv (rels : List C4Relationship) (nodes : List String)
    (c : String) (P : List String)
    (Hend : ∀ r ∈ rels, r.source_id ∈ nodes ∧ r.target_id ∈ nodes)
    (hnoself : ∀ r ∈ rels, r.source_id ≠ r.target_id) :
    ∀ (rs : List C4Relationship) (lv : String → Nat) (dg : String → Int)
      (q : List String),
      (∀ x ∈ rs, x ∈ rels) →
      (∀ s, dg s = countIn rels s (P ++ [c]) + cntC c rs s) →
      ((P ++ [c]) ++ q).Nodup →
      (∀ s ∈ (P ++ [c]) ++ q, s ∈ nodes) →
      (∀ s ∈ (P ++ [c]) ++ q, dg s = 0) →
      (∀ x ∈ rels, x.source_id ∈ P →
        lv x.target_id ≥ lv x.source_id + 1) →
      (∀ x ∈ rels, x.source_id = c → x ∉ rs →
        lv x.target_id ≥ lv x.source_id + 1) →
      (∀ s ∈ nodes, dg s = 0 → s ∈ (P ++ [c]) ++ q) →
      (∀ s, (processRels c rs (lv, dg, q)).2.1 s =
        countIn rels s (P ++ [c])) ∧
      ((P ++ [c]) ++ (processRels c rs (lv, dg, q)).2.2).Nodup ∧
      (∀ s ∈ (P ++ [c]) ++ (processRels c rs (lv, dg, q)).2.2,
        s ∈ nodes) ∧
      (∀ s ∈ (P ++ [c]) ++ (processRels c rs (lv, dg, q)).2.2,
        (processRels c rs (lv, dg, q)).2.1 s = 0) ∧
      (∀ x ∈ rels, x.source_id ∈ P ++ [c] →
        (processRels c rs (lv, dg, q)).1 x.target_id ≥
          (processRels c rs (lv, dg, q)).1 x.source_id + 1) ∧
      (∀ s ∈ nodes, (processRels c rs (lv, dg, q)).2.1 s = 0 →
        s ∈ (P ++ [c]) ++ (processRels c rs (lv, dg, q)).2.2) := by
  intro rs
  induction rs with
  | nil =>
    intro lv dg q hsub hA hBnd hBsub hC hDP hDc hF
    refine ⟨?_, hBnd, hBsub, hC, ?_, hF⟩
    · intro s
      have h1 := hA s
      simp only [cntC, List.countP_nil, Int.ofNat_zero, add_zero] at h1
      exact h1
    · intro x hx hxP
      rcases List.mem_append.mp hxP with h1 | h1
      · exact hDP x hx h1
      · simp only [List.mem_singleton] at h1
        exact hDc x hx h1 (by simp)
  | cons r rs ih =>
    intro lv dg q hsub hA hBnd hBsub hC hDP hDc hF
    have hr : r ∈ rels := hsub r (List.mem_cons_self _ _)
    by_cases hsrc : r.source_id = c
    · rw [processRels_cons_match c r rs lv dg q hsrc]
      have f1 : r.target_id ≠ c := by
        have h1 := hnoself r hr
        rw [hsrc] at h1
        exact fun hh => h1 hh.symm
      have f2 : dg r.target_id = countIn rels r.target_id (P ++ [c]) +
          cntC c rs r.target_id + 1 := by
        rw [hA r.target_id, cntC_cons_match c r rs hsrc, if_pos rfl]
        omega
      have f3 : r.target_id ∉ (P ++ [c]) ++ q := by
        intro hmem
        have h1 := hC _ hmem
        have h2 := countIn_nonneg rels r.target_id (P ++ [c])
        have h3 := cntC_nonneg c rs r.target_id
        omega
      have ftn : r.target_id ∈ nodes := (Hend r hr).2
      apply ih
      · intro x hx
        exact hsub x (List.mem_cons_of_mem _ hx)
      · intro s
        by_cases hs : s = r.target_id
        · subst hs
          rw [if_pos rfl]
          omega
        · rw [if_neg hs, hA s, cntC_cons_match c r rs hsrc,
            if_neg (fun hh => hs hh.symm)]
          omega
      · by_cases hq : dg r.target_id - 1 = 0
        · rw [if_pos hq, ← List.append_assoc]
          rw [List.nodup_append]
          refine ⟨hBnd, List.nodup_singleton _, ?_⟩
          intro a ha
          simp only [List.mem_singleton]
          intro hh
          rw [hh] at ha
          exact f3 ha
        · rw [if_neg hq]
          exact hBnd
      · intro s hs
        by_cases hq : dg r.target_id - 1 = 0
        · rw [if_pos hq, ← List.append_assoc] at hs
          rcases List.mem_append.mp hs with h1 | h1
          · exact hBsub s h1
          · simp only [List.mem_singleton] at h1
            rw [h1]
            exact ftn
        · rw [if_neg hq] at hs
          exact hBsub s hs
      · intro s hs
        by_cases hst : s = r.target_id
        · subst hst
          rw [if_pos rfl]
          by_cases hq : dg r.target_id - 1 = 0
          · exact hq
          · rw [if_neg hq] at hs
            exact absurd hs f3
        · rw [if_neg hst]
          apply hC
          by_cases hq : dg r.target_id - 1 = 0
          · rw [if_pos hq, ← List.append_assoc] at hs
            rcases List.mem_append.mp hs with h1 | h1
            · exact h1
            · simp only [List.mem_singleton] at h1
              exact absurd h1 hst
          · rw [if_neg hq] at hs
            exact hs
      · intro x hx hxP
        have hd := hDP x hx hxP
        have hsrcne : x.source_id ≠ r.target_id := by
          intro hh
          apply f3
          rw [← hh]
          exact List.mem_append_left _ (List.mem_append_left _ hxP)
        rw [if_neg hsrcne]
        by_cases htgt : x.target_id = r.target_id
        · rw [if_pos htgt, ← htgt]
          have h1 : lv x.target_id ≤ max (lv x.target_id) (lv c + 1) :=
            le_max_left _ _
          omega
        · rw [if_neg htgt]
          exact hd
      · intro x hx hxc hxrs
        have hlvc : (if c = r.target_id then
            max (lv r.target_id) (lv c + 1) else lv c) = lv c := by
          rw [if_neg (fun hh => f1 hh.symm)]
        by_cases hxr : x = r
        · subst hxr
          rw [hxc, hlvc, if_pos rfl]
          have h1 : lv c + 1 ≤ max (lv x.target_id) (lv c + 1) :=
            le_max_right _ _
          omega
        · have hnot : x ∉ r :: rs := by
            intro hh
            rcases List.mem_cons.mp hh with h1 | h1
            · exact hxr h1
            · exact hxrs h1
          have hd := hDc x hx hxc hnot
          rw [hxc, hlvc]
          rw [hxc] at hd
          by_cases htgt : x.target_id = r.target_id
          · rw [if_pos htgt, ← htgt]
            have h1 : lv x.target_id ≤ max (lv x.target_id) (lv c + 1) :=
              le_max_left _ _
            omega
          · rw [if_neg htgt]
            exact hd
      · intro s hsn hdg
        by_cases hst : s = r.target_id
        · subst hst
          rw [if_pos rfl] at hdg
          rw [if_pos hdg]
          rw [← List.append_assoc]
          exact List.mem_append_right _ (List.mem_singleton_self _)
        · rw [if_neg hst] at hdg
          have h1 := hF s hsn hdg
          by_cases hq : dg r.target_id - 1 = 0
          · rw [if_pos hq, ← List.append_assoc]
            exact List.mem_append_left _ h1
          · rw [if_neg hq]
            exact h1
    · rw [processRels_cons_skip c r rs lv dg q hsrc]
      apply ih
      · intro x hx
        exact hsub x (List.mem_cons_of_mem _ hx)
      · intro s
        rw [hA s, cntC_cons_skip c r rs hsrc]
      · exact hBnd
      · exact hBsub
      · exact hC
      · exact hDP
      · intro x hx hxc hxrs
        apply hDc x hx hxc
        intro hh
        rcases List.mem_cons.mp hh with h1 | h1
        · rw [h1] at hxc
          exact hsrc hxc
        · exact hxrs h1
      · exact hF

/-- Once the queue is empty, every node has been dequeued (by strong
induction on the topological rank: a minimal-rank undequeued node would
have tracked in-degree zero), so every edge has been relaxed and the level
of its target strictly exceeds the level of its source. -/
theorem kahn_done (rels : List C4Relationship) (nodes : List String)
    (rank : String → Nat)
    (Hend : ∀ r ∈ rels, r.source_id ∈ nodes ∧ r.target_id ∈ nodes)
    (Hrank : ∀ r ∈ rels, rank r.source_id < rank r.target_id)
    (lv : String → Nat) (dg : String → Int) (P : List String)
    (hA : ∀ s, dg s = countIn rels s P)
    (hD : ∀ r ∈ rels, r.source_id ∈ P →
      lv r.target_id ≥ lv r.source_id + 1)
    (hF : ∀ s ∈ nodes, dg s = 0 → s ∈ P) :
    ∀ r ∈ rels, lv r.target_id > lv r.source_id := by
  have key : ∀ n, ∀ u ∈ nodes, rank u < n → u ∈ P := by
    intro n
    induction n with
    | zero => intro u _ h; exact absurd h (Nat.not_lt_zero _)
    | succ n ihn =>
      intro u hu hlt
      apply hF u hu
      rw [hA u]
      unfold countIn
      have hz : rels.countP
          (fun r => r.target_id = u ∧ r.source_id ∉ P) = 0 := by
        rw [List.countP_eq_zero]
        intro r hrm
        simp only [decide_eq_true_eq, not_and, not_not]
        intro htgt
        have h1 := Hrank r hrm
        rw [htgt] at h1
        exact ihn r.source_id (Hend r hrm).1 (by omega)
      rw [hz]
      rfl
  intro r hrm
  have hsrc := key (rank r.source_id + 1) r.source_id (Hend r hrm).1
    (Nat.lt_succ_self _)
  have h2 := hD r hrm hsrc
  omega

/-- The Kahn while-loop, started from any state satisfying the invariants
with enough fuel for the missing dequeues, ends with strictly increasing
levels along every relationship.  The fuel suffices because each iteration
dequeues one more distinct node id and there are only nodes.length of
them. -/
theorem kahn_main (rels : List C4Relationship) (nodes : List String)
    (rank : String → Nat)
    (Hend : ∀ r ∈ rels, r.source_id ∈ nodes ∧ r.target_id ∈ nodes)
    (Hrank : ∀ r ∈ rels, rank r.source_id < rank r.target_id) :
    ∀ (fuel : Nat) (lv : String → Nat) (dg : String → Int)
      (q P : List String),
      (∀ s, dg s = countIn rels s P) →
      ((P ++ q).Nodup) →
      (∀ s ∈ P ++ q, s ∈ nodes) →
      (∀ s ∈ P ++ q, dg s = 0) →
      (∀ r ∈ rels, r.source_id ∈ P →
        lv r.target_id ≥ lv r.source_id + 1) →
      (∀ s ∈ nodes, dg s = 0 → s ∈ P ++ q) →
      nodes.length ≤ fuel + P.length →
      ∀ r ∈ rels, kahnLoop rels fuel lv dg q r.target_id >
        kahnLoop rels fuel lv dg q r.source_id := by
  intro fuel
  induction fuel with
  | zero =>
    intro lv dg q P hA hBnd hBsub hC hD hF hfuel
    cases q with
    | nil =>
      simp only [kahnLoop]
      exact kahn_done rels nodes rank Hend Hrank lv dg P hA hD
        (fun s hs h0 => by simpa using hF s hs h0)
    | cons c q' =>
      exfalso
      have hsub : (P ++ c :: q') ⊆ nodes := fun a ha => hBsub a ha
      have hlen := List.Subperm.length_le
        (List.subperm_of_subset hBnd hsub)
      simp only [List.length_append, List.length_cons] at hlen
      omega
  | succ fuel ihf =>
    intro lv dg q P hA hBnd hBsub hC hD hF hfuel
    cases q with
    | nil =>
      simp only [kahnLoop]
      exact kahn_done rels nodes rank Hend Hrank lv dg P hA hD
        (fun s hs h0 => by simpa using hF s hs h0)
    | cons c q' =>
      have hcP : c ∉ P := by
        intro hcp
        rcases List.nodup_append.mp hBnd with ⟨-, -, hdisj⟩
        exact hdisj hcp (List.mem_cons_self _ _)
      have hApre : ∀ s, dg s =
          countIn rels s (P ++ [c]) + cntC c rels s := by
        intro s
        rw [hA s, countIn_split rels s c P hcP]
      have hassoc : (P ++ [c]) ++ q' = P ++ c :: q' := by simp
      have hproc := processRels_inv rels nodes c P Hend
        (HasTopoRank.no_self_loop ⟨rank, Hrank⟩) rels lv dg q'
        (fun x hx => hx) hApre (by rw [hassoc]; exact hBnd)
        (by rw [hassoc]; exact hBsub) (by rw [hassoc]; exact hC)
        hD (fun x hx _ hxin => absurd hx hxin)
        (by rw [hassoc]; exact hF)
      obtain ⟨pA, pBnd, pBsub, pC, pD, pF⟩ := hproc
      simp only [kahnLoop]
      apply ihf _ _ _ (P ++ [c]) pA pBnd pBsub pC pD pF
      simp only [List.length_append, List.length_singleton]
      omega

/-- The full in-degree of the target of a present relationship is not
zero. -/
theorem indeg0_target_ne (rels : List C4Relationship) (r : C4Relationship)
    (hr : r ∈ rels) : indeg0 rels r.target_id ≠ 0 := by
  unfold indeg0
  have h1 : 0 < rels.countP (fun x => x.target_id = r.target_id) :=
    List.countP_pos_iff.mpr ⟨r, hr, by simp⟩
  intro h2
  rw [Int.natCast_eq_zero] at h2
  omega

/-- The inner scan never touches the level of an id no relationship
targets. -/
theorem processRels_zero (rels : List C4Relationship) (c : String) :
    ∀ (rs : List C4Relationship) (lv : String → Nat) (dg : String → Int)
      (q : List String),
      (∀ x ∈ rs, x ∈ rels) →
      (∀ s, indeg0 rels s = 0 → lv s = 0) →
      ∀ s, indeg0 rels s = 0 → (processRels c rs (lv, dg, q)).1 s = 0 := by
  intro rs
  induction rs with
  | nil => intro lv dg q _ h s hs; exact h s hs
  | cons r rs ih =>
    intro lv dg q hsub h s hs
    by_cases hsrc : r.source_id = c
    · rw [processRels_cons_match c r rs lv dg q hsrc]
      apply ih _ _ _ (fun x hx => hsub x (List.mem_cons_of_mem _ hx)) _ s hs
      intro s' hs'
      have hne : s' ≠ r.target_id := by
        intro hh
        rw [hh] at hs'
        exact indeg0_target_ne rels r (hsub r (List.mem_cons_self _ _)) hs'
      rw [if_neg hne]
      exact h s' hs'
    · rw [processRels_cons_skip c r rs lv dg q hsrc]
      exact ih _ _ _ (fun x hx => hsub x (List.mem_cons_of_mem _ hx)) h s hs

/-- The while-loop never touches the level of an id no relationship
targets: zero-in-degree ids keep level 0. -/
theorem kahnLoop_zero (rels : List C4Relationship) :
    ∀ (fuel : Nat) (lv : String → Nat) (dg : String → Int)
      (q : List String),
      (∀ s, indeg0 rels s = 0 → lv s = 0) →
      ∀ s, indeg0 rels s = 0 → kahnLoop rels fuel lv dg q s = 0 := by
  intro fuel
  induction fuel with
  | zero => intro lv dg q h s hs; exact h s hs
  | succ fuel ih =>
    intro lv dg q h s hs
    cases q with
    | nil => exact h s hs
    | cons c q' =>
      simp only [kahnLoop]
      exact ih _ _ _ (processRels_zero rels c rels lv dg q'
        (fun x hx => hx) h) s hs

/-- First-occurrence deduplication is the identity on duplicate-free lists
disjoint from the seen accumulator. -/
theorem dedupFirstAux_of_nodup :
    ∀ (l seen : List String), l.Nodup → (∀ x ∈ l, x ∉ seen) →
      dedupFirstAux seen l = l := by
  intro l
  induction l with
  | nil => intro seen _ _; rfl
  | cons s rest ih =>
    intro seen hnd hno
    unfold dedupFirstAux
    rw [if_neg (by simpa using hno s (List.mem_cons_self s rest))]
    congr 1
    apply ih
    · exact (List.nodup_cons.mp hnd).2
    · intro x hx
      simp only [List.mem_cons, not_or]
      exact ⟨fun hh => (List.nodup_cons.mp hnd).1 (hh ▸ hx),
        hno x (List.mem_cons_of_mem _ hx)⟩

/-- First-occurrence deduplication is the identity on duplicate-free
lists. -/
theorem dedupFirst_of_nodup (l : List String) (h : l.Nodup) :
    dedupFirst l = l :=
  dedupFirstAux_of_nodup l [] h (by simp)

/-- Claim C8: on a diagram with at least one element, duplicate-free
element ids, referentially intact relationships, and an acyclic
relationship graph, the layered layout's level computation assigns level 0
to every element with zero in-degree and, along every relationship, a
strictly larger level to the target than to the source. -/
theorem c8_layered_level_computation (d : C4Diagram)
    (hnd : (d.elements.map (fun e => e.id)).Nodup)
    (_hne : d.elements ≠ [])
    (hRV : RelsValid d)
    (hacyc : HasTopoRank d.relationships) :
    (∀ e ∈ d.elements, indeg0 d.relationships e.id = 0 →
      calculate_dependency_levels d e.id = 0) ∧
    (∀ r ∈ d.relationships,
      calculate_dependency_levels d r.target_id >
        calculate_dependency_levels d r.source_id) := by
  obtain ⟨rank, Hrank⟩ := hacyc
  constructor
  · intro e _ h0
    unfold calculate_dependency_levels
    exact kahnLoop_zero d.relationships _ _ _ _ (fun _ _ => rfl) e.id h0
  · unfold calculate_dependency_levels
    rw [dedupFirst_of_nodup _ hnd]
    intro r hr
    apply kahn_main d.relationships (elementIds d) rank hRV Hrank
      (d.elements.length + d.relationships.length)
      (fun _ => 0) (indeg0 d.relationships) _ [] ?_ ?_ ?_ ?_ ?_ ?_ ?_ r hr
    · intro s
      rw [countIn_nil]
    · simp only [List.nil_append]
      exact List.Nodup.filter _ hnd
    · intro s hs
      simp only [List.nil_append, List.mem_filter] at hs
      exact hs.1
    · intro s hs
      simp only [List.nil_append, List.mem_filter,
        decide_eq_true_eq] at hs
      exact hs.2
    · intro x _ hx
      exact absurd hx (List.not_mem_nil _)
    · intro s hs h0
      simp only [List.nil_append, List.mem_filter]
      exact ⟨hs, by simpa using h0⟩
    · simp only [List.length_nil, elementIds, List.length_map]
      omega

/-- Witness for c8_layered_level_computation at concrete inputs. -/
theorem c8_layered_level_computation_witness :
    (c8d.elements.map (fun e => e.id)).Nodup ∧
    c8d.elements ≠ [] ∧
    RelsValid c8d ∧
    HasTopoRank c8d.relationships ∧
    ((∀ e ∈ c8d.elements, indeg0 c8d.relationships e.id = 0 →
      calculate_dependency_levels c8d e.id = 0) ∧
     (∀ r ∈ c8d.relationships,
      calculate_dependency_levels c8d r.target_id >
        calculate_dependency_levels c8d r.source_id)) :=
  ⟨by decide, by decide, by decide, ⟨c8rank, by decide⟩,
   c8_layered_level_computation c8d (by decide) (by decide) (by decide)
     ⟨c8rank, by decide⟩⟩

end DiagramOptimizer





